import Mathlib

/-!
# DRAMSim bank storage and bus packets

A shallow embedding of `Bank.cpp` and `BusPacket.cpp`.

* A column chain (`DataStruct *` linked through `next`, ending at `NULL`) is the list of its
  nodes from the head; a pointer to a node of a chain is the position of the node in it.
* A payload (`void *data`) is a block handle into a heap of byte blocks; `0` is `NULL`.
  Words are laid out as on an LP64 little-endian target (`long` and `uint64_t` take 8 bytes).
* The `unsigned` and `uint64_t` fields of a packet are natural numbers; the code only compares
  and prints them.
* The configuration globals (`NUM_COLS`, `BL`, `JEDEC_DATA_BUS_BITS`, `DEBUG_BANKS`,
  `VERIFICATION_OUTPUT`) are declared outside the two files and are taken as parameters; the
  product `BL * (JEDEC_DATA_BUS_BITS / 8)` is taken in the natural numbers (no wrap-around).
* The output macros `ERROR`, `PRINT`, `PRINTN` and the streams `cout` and `cmd_verify_out` are
  recorded as events carrying the text inserted into the stream.
* Allocation (`malloc`, `calloc`) is assumed to succeed.
-/

namespace DRAMSim

/-! ## Outcomes -/

/-- How a call ends: it returns, it reaches `exit(code)` (the state reached is kept), or it
runs into behaviour the language leaves undefined (an access outside a vector or a block). -/
inductive Outcome (α : Type) where
  | returned (a : α)
  | exited (code : Int) (a : α)
  | undefined
  deriving DecidableEq, Repr

/-! ## Configuration and output -/

/-- The configuration globals read by the two files. -/
structure Config where
  NUM_COLS : Nat
  BL : Nat
  JEDEC_DATA_BUS_BITS : Nat
  DEBUG_BANKS : Bool
  VERIFICATION_OUTPUT : Bool
  deriving DecidableEq, Repr

/-- One use of an output macro or stream, with the text it inserts. -/
inductive Output where
  | ERROR (text : String)
  | PRINT (text : String)
  | PRINTN (text : String)
  | cout (text : String)
  | cmd_verify_out (text : String)
  deriving DecidableEq, Repr

/-- The text of `std::endl`. -/
def endl : String := "\n"

/-- Text of an unsigned value inserted into a stream in `dec` mode. -/
def dec (n : Nat) : String := toString n

/-- Text of an unsigned value inserted into a stream in `hex` mode. -/
def hex (n : Nat) : String := String.mk (Nat.toDigits 16 n)

/-! ## The heap of payload buffers -/

/-- A `void *`: a block handle, `0` for `NULL`. -/
abbrev Ptr := Nat

/-- The null pointer. -/
def NULL : Ptr := 0

/-- Size of a `long` in bytes. -/
def LONG_BYTES : Nat := 8

/-- Size of a `uint64_t` in bytes. -/
def UINT64_BYTES : Nat := 8

/-- The allocated blocks, each a sequence of bytes; handle `p` names block `p - 1`. -/
structure Heap where
  blocks : List (List Nat)
  deriving DecidableEq, Repr

/-- The block a pointer refers to, if it refers to one. -/
def Heap.block (h : Heap) (p : Ptr) : Option (List Nat) :=
  if p = NULL then none else h.blocks[p - 1]?

/-- Allocation of `nmemb * size` zeroed bytes in a block of its own (`calloc`). -/
def Heap.calloc (h : Heap) (nmemb size : Nat) : Ptr × Heap :=
  (h.blocks.length + 1, { blocks := h.blocks ++ [List.replicate (nmemb * size) 0] })

/-- The `k` low bytes of `v`, least significant first. -/
def bytesLE : Nat → Nat → List Nat
  | 0, _ => []
  | k + 1, v => (v % 256) :: bytesLE k (v / 256)

/-- The value of a sequence of bytes, least significant first. -/
def wordLE : List Nat → Nat
  | [] => 0
  | b :: bs => b + 256 * wordLE bs

/-- The assignment `((long *)p)[i] = v`; `none` when it falls outside the block of `p`. -/
def Heap.storeLong (h : Heap) (p : Ptr) (i : Nat) (v : Nat) : Option Heap :=
  match h.block p with
  | none => none
  | some buf =>
    if LONG_BYTES * (i + 1) ≤ buf.length then
      let buf1 := buf.take (LONG_BYTES * i) ++ bytesLE LONG_BYTES v
        ++ buf.drop (LONG_BYTES * (i + 1))
      some { blocks := h.blocks.set (p - 1) buf1 }
    else none

/-- The value `((long *)p)[i]`; `none` when it falls outside the block of `p`. -/
def Heap.loadLong (h : Heap) (p : Ptr) (i : Nat) : Option Nat :=
  match h.block p with
  | none => none
  | some buf =>
    if LONG_BYTES * (i + 1) ≤ buf.length then
      some (wordLE ((buf.drop (LONG_BYTES * i)).take LONG_BYTES))
    else none

/-- The value `((uint64_t *)p)[i]`; `none` when it falls outside the block of `p`. -/
def Heap.loadUInt64 (h : Heap) (p : Ptr) (i : Nat) : Option Nat :=
  match h.block p with
  | none => none
  | some buf =>
    if UINT64_BYTES * (i + 1) ≤ buf.length then
      some (wordLE ((buf.drop (UINT64_BYTES * i)).take UINT64_BYTES))
    else none

/-! ## Bus packets (`BusPacket.cpp`) -/

/-- The enumeration `BusPacketType`; `unrecognised v` stands for a value of the type that is
none of the eight enumerators. -/
inductive BusPacketType where
  | READ
  | READ_P
  | WRITE
  | WRITE_P
  | ACTIVATE
  | PRECHARGE
  | REFRESH
  | DATA
  | unrecognised (v : Nat)
  deriving DecidableEq, Repr

/-- The data members of `BusPacket`. -/
structure BusPacket where
  busPacketType : BusPacketType
  column : Nat
  row : Nat
  bank : Nat
  rank : Nat
  physicalAddress : Nat
  data : Ptr
  deriving DecidableEq, Repr

/-- The constructor `BusPacket::BusPacket(packtype, physicalAddr, col, rw, r, b, dat, log)`. -/
def BusPacket.new (packtype : BusPacketType) (physicalAddr : Nat)
    (col rw r b : Nat) (dat : Ptr) : BusPacket :=
  { busPacketType := packtype
    column := col
    row := rw
    bank := b
    rank := r
    physicalAddress := physicalAddr
    data := dat }

/-- The method `BusPacket::print(uint64_t currentClockCycle, bool dataStart)`: the packet after
the call and the output emitted. -/
def BusPacket.print (cfg : Config) (self : BusPacket) (currentClockCycle : Nat)
    (_dataStart : Bool) : Outcome (BusPacket × List Output) :=
  if cfg.VERIFICATION_OUTPUT then
    match self.busPacketType with
    | .READ =>
      .returned (self, [.cmd_verify_out (dec currentClockCycle ++ ": read (" ++ dec self.rank
        ++ "," ++ dec self.bank ++ "," ++ dec self.column ++ ",0);" ++ endl)])
    | .READ_P =>
      .returned (self, [.cmd_verify_out (dec currentClockCycle ++ ": read (" ++ dec self.rank
        ++ "," ++ dec self.bank ++ "," ++ dec self.column ++ ",1);" ++ endl)])
    | .WRITE =>
      .returned (self, [.cmd_verify_out (dec currentClockCycle ++ ": write (" ++ dec self.rank
        ++ "," ++ dec self.bank ++ "," ++ dec self.column ++ ",0 , 0, 'h0);" ++ endl)])
    | .WRITE_P =>
      .returned (self, [.cmd_verify_out (dec currentClockCycle ++ ": write (" ++ dec self.rank
        ++ "," ++ dec self.bank ++ "," ++ dec self.column ++ ",1, 0, 'h0);" ++ endl)])
    | .ACTIVATE =>
      .returned (self, [.cmd_verify_out (dec currentClockCycle ++ ": activate ("
        ++ dec self.rank ++ "," ++ dec self.bank ++ "," ++ dec self.row ++ ");" ++ endl)])
    | .PRECHARGE =>
      .returned (self, [.cmd_verify_out (dec currentClockCycle ++ ": precharge ("
        ++ dec self.rank ++ "," ++ dec self.bank ++ "," ++ dec self.row ++ ");" ++ endl)])
    | .REFRESH =>
      .returned (self, [.cmd_verify_out (dec currentClockCycle ++ ": refresh ("
        ++ dec self.rank ++ ");" ++ endl)])
    | .DATA => .returned (self, [])
    | .unrecognised _ =>
      .exited (-1) (self, [.ERROR "Trying to print unknown kind of bus packet"])
  else .returned (self, [])

/-- The loop `for (int i = 0; i < 4; i++) PRINTN(((uint64_t *)data)[i])` from index `i` on,
`todo` iterations left, on a stream in `hex` mode. -/
def BusPacket.printDataLoop (heap : Heap) (data : Ptr) : Nat → Nat → Outcome (List Output)
  | _, 0 => .returned []
  | i, todo + 1 =>
    match heap.loadUInt64 data i with
    | none => .undefined
    | some w =>
      match BusPacket.printDataLoop heap data (i + 1) todo with
      | .returned rest => .returned (Output.PRINTN (hex w) :: rest)
      | .exited code rest => .exited code (Output.PRINTN (hex w) :: rest)
      | .undefined => .undefined

/-- The method `BusPacket::printData() const`. -/
def BusPacket.printData (self : BusPacket) (heap : Heap) : Outcome (List Output) :=
  if self.data = NULL then .returned [.PRINTN "NO DATA"]
  else
    match BusPacket.printDataLoop heap self.data 0 4 with
    | .returned words => .returned ([Output.PRINTN "'"] ++ words ++ [Output.PRINTN "'"])
    | .exited code words => .exited code ([Output.PRINTN "'"] ++ words)
    | .undefined => .undefined

/-- The scan of a `sprintf` format whose conversions are all `%s`, one per argument: the text
stored into the buffer; `afterPercent` tells that the character before was a `%`. -/
def sprintfScan : Bool → List Char → List String → List Char
  | _, [], _ => []
  | false, c :: rest, args =>
    if c = '%' then sprintfScan true rest args else c :: sprintfScan false rest args
  | true, c :: rest, args =>
    match args with
    | arg :: args1 =>
      if c = 's' then arg.data ++ sprintfScan false rest args1
      else c :: sprintfScan false rest args
    | [] => c :: sprintfScan false rest []

/-- The C function `sprintf(msg, fmt, args...)`: the text stored into `msg`. -/
def sprintf (fmt : String) (args : List String) : String :=
  String.mk (sprintfScan false fmt.data args)

/-- The array `fmt` of `BusPacket::print()`, as its initialiser spells it. -/
def BusPacket.fmt : String :=
  "\"BP [%s] pa[0x\"<<hex<<physicalAddress<<dec<<\"] r[\"<<rank<<\"] b[\"<<bank<<\"] row[\"<<row<<\"] col[\"<<column<<\"]\""

/-- The buffer `msg` after `std::sprintf(msg, fmt, tag)`. -/
def BusPacket.msg (tag : String) : String :=
  sprintf BusPacket.fmt [tag]

/-- The method `BusPacket::print()` (no arguments): the packet after the call and the output
emitted. The text a `void *` inserts into a stream is left to the implementation and is the
parameter `ptrText`. -/
def BusPacket.printNoArgs (ptrText : Ptr → String) (heap : Heap) (self : BusPacket) :
    Outcome (BusPacket × List Output) :=
  match self.busPacketType with
  | .READ => .returned (self, [.PRINT (BusPacket.msg "READ"), .cout (BusPacket.msg "READ")])
  | .READ_P =>
    .returned (self, [.PRINT (BusPacket.msg "READ_P"), .cout (BusPacket.msg "READ_P")])
  | .WRITE => .returned (self, [.PRINT (BusPacket.msg "WRITE")])
  | .WRITE_P => .returned (self, [.PRINT (BusPacket.msg "WRITE_P")])
  | .ACTIVATE => .returned (self, [.PRINT (BusPacket.msg "ACT")])
  | .PRECHARGE => .returned (self, [.PRINT (BusPacket.msg "PRE")])
  | .REFRESH => .returned (self, [.PRINT (BusPacket.msg "REF")])
  | .DATA =>
    let head : Output := .PRINTN ("BP [DATA] pa[0x" ++ hex self.physicalAddress ++ "] r["
      ++ dec self.rank ++ "] b[" ++ dec self.bank ++ "] row[" ++ dec self.row ++ "] col["
      ++ dec self.column ++ "] data[" ++ ptrText self.data ++ "]=")
    match self.printData heap with
    | .returned words => .returned (self, [head] ++ words ++ [Output.PRINT ""])
    | .exited code words => .exited code (self, [head] ++ words)
    | .undefined => .undefined
  | .unrecognised _ =>
    .exited (-1) (self, [.ERROR "Trying to print unknown kind of bus packet"])

/-! ## Bank storage (`Bank.cpp`) -/

/-- A node of a column chain; its `next` link is its successor in the list. -/
structure DataStruct where
  row : Nat
  data : Ptr
  deriving DecidableEq, Repr

/-- The storage of a bank: `rowEntries`, one chain per column. -/
structure Bank where
  rowEntries : List (List DataStruct)
  deriving DecidableEq, Repr

/-- The constructor `Bank::Bank`: `rowEntries(NUM_COLS)`, every chain empty. -/
def Bank.new (cfg : Config) : Bank :=
  { rowEntries := List.replicate cfg.NUM_COLS [] }

/-- The function `Bank::searchForRow(row, head)`: the first node of the chain whose row is
`row` (its position from `head`), or `none` for `NULL`. -/
def Bank.searchForRow (row : Nat) : List DataStruct → Option Nat
  | [] => none
  | head :: next =>
    if head.row = row then some 0
    else
      match Bank.searchForRow row next with
      | none => none
      | some foundNode => some (foundNode + 1)

/-- The method `Bank::read(busPacket)`: the bank, the heap and the packet after the call. -/
def Bank.read (cfg : Config) (heap : Heap) (self : Bank) (busPacket : BusPacket) :
    Outcome (Bank × Heap × BusPacket) :=
  match self.rowEntries[busPacket.column]? with
  | none => .undefined
  | some rowHeadNode =>
    match Bank.searchForRow busPacket.row rowHeadNode with
    | none =>
      let (garbage, heap1) := heap.calloc (cfg.BL * (cfg.JEDEC_DATA_BUS_BITS / 8)) 1
      match heap1.storeLong garbage 0 0xdeadbeef with
      | none => .undefined
      | some heap2 =>
        .returned (self, heap2, { busPacket with data := garbage, busPacketType := .DATA })
    | some foundNode =>
      match rowHeadNode[foundNode]? with
      | none => .undefined
      | some node =>
        .returned (self, heap, { busPacket with data := node.data, busPacketType := .DATA })

/-- The method `Bank::write(busPacket)`: the bank after the call and the output emitted. -/
def Bank.write (cfg : Config) (heap : Heap) (self : Bank) (busPacket : BusPacket) :
    Outcome (Bank × List Output) :=
  if cfg.NUM_COLS ≤ busPacket.column then
    .exited (-1) (self, [.ERROR ("== Error - Bus Packet column " ++ dec busPacket.column
      ++ " out of bounds")])
  else
    match self.rowEntries[busPacket.column]? with
    | none => .undefined
    | some rowHeadNode =>
      match Bank.searchForRow busPacket.row rowHeadNode with
      | none =>
        let newRowNode : DataStruct := { row := busPacket.row, data := busPacket.data }
        let rowHeadNode1 := newRowNode :: rowHeadNode
        .returned ({ rowEntries := self.rowEntries.set busPacket.column rowHeadNode1 }, [])
      | some foundNode =>
        let rowHeadNode1 :=
          rowHeadNode.modify (fun node => { node with data := busPacket.data }) foundNode
        let self1 : Bank := { rowEntries := self.rowEntries.set busPacket.column rowHeadNode1 }
        if cfg.DEBUG_BANKS then
          match busPacket.printData heap with
          | .returned words =>
            .returned (self1, [Output.PRINTN (" -- Bank " ++ dec busPacket.bank
              ++ " writing to physical address 0x" ++ hex busPacket.physicalAddress ++ ":")]
              ++ words ++ [Output.PRINT ""])
          | .exited code words =>
            .exited code (self1, [Output.PRINTN (" -- Bank " ++ dec busPacket.bank
              ++ " writing to physical address 0x" ++ hex busPacket.physicalAddress ++ ":")]
              ++ words)
          | .undefined => .undefined
        else .returned (self1, [])

/-- A run of `Bank::write` calls, each in the heap of its moment; it stops at the first call
that does not return. -/
def Bank.writeAll (cfg : Config) (self : Bank) : List (Heap × BusPacket) →
    Outcome (Bank × List Output)
  | [] => .returned (self, [])
  | (heap, busPacket) :: rest =>
    match Bank.write cfg heap self busPacket with
    | .returned (self1, out1) =>
      match Bank.writeAll cfg self1 rest with
      | .returned (self2, out2) => .returned (self2, out1 ++ out2)
      | .exited code (self2, out2) => .exited code (self2, out1 ++ out2)
      | .undefined => .undefined
    | .exited code r => .exited code r
    | .undefined => .undefined

/-- A call on a bank: a write or a read of a packet, in the heap of its moment. -/
inductive BankCall where
  | write (heap : Heap) (busPacket : BusPacket)
  | read (heap : Heap) (busPacket : BusPacket)
  deriving DecidableEq, Repr

/-- A run of `Bank::write` and `Bank::read` calls: the bank it leaves; it stops at the first
call that does not return. -/
def Bank.run (cfg : Config) (self : Bank) : List BankCall → Outcome Bank
  | [] => .returned self
  | .write heap busPacket :: rest =>
    match Bank.write cfg heap self busPacket with
    | .returned (self1, _) => Bank.run cfg self1 rest
    | .exited code (self1, _) => .exited code self1
    | .undefined => .undefined
  | .read heap busPacket :: rest =>
    match Bank.read cfg heap self busPacket with
    | .returned (self1, _, _) => Bank.run cfg self1 rest
    | .exited code (self1, _, _) => .exited code self1
    | .undefined => .undefined

/-! ## Notions used to state the properties -/

/-- Whether the chain of `column` holds a node for `row`, as `searchForRow` tells. -/
def Bank.present (self : Bank) (column row : Nat) : Bool :=
  match self.rowEntries[column]? with
  | none => false
  | some rowHeadNode => (Bank.searchForRow row rowHeadNode).isSome

/-- The payload reference a search for `row` reaches in a chain: that of the first node whose
row is `row`. -/
def Bank.stored (row : Nat) : List DataStruct → Option Ptr
  | [] => none
  | head :: next => if head.row = row then some head.data else Bank.stored row next

/-- The payload reference a search for `(column, row)` reaches in a bank. -/
def Bank.lookup (self : Bank) (column row : Nat) : Option Ptr :=
  match self.rowEntries[column]? with
  | none => none
  | some rowHeadNode => Bank.stored row rowHeadNode

/-- Row uniqueness: no chain of the bank holds two nodes with one row value. -/
def Bank.rowsUnique (self : Bank) : Prop :=
  ∀ chain ∈ self.rowEntries, (chain.map DataStruct.row).Nodup

instance Bank.decidableRowsUnique (self : Bank) : Decidable self.rowsUnique := by
  unfold Bank.rowsUnique
  infer_instance

/-- The buffer a missing read hands out. -/
def sentinelBuffer (cfg : Config) : List Nat :=
  bytesLE LONG_BYTES 0xdeadbeef
    ++ List.replicate (cfg.BL * (cfg.JEDEC_DATA_BUS_BITS / 8) - LONG_BYTES) 0

/-- Applying a function to the state an outcome carries. -/
def Outcome.map {α β : Type} (f : α → β) : Outcome α → Outcome β
  | .returned a => .returned (f a)
  | .exited code a => .exited code (f a)
  | .undefined => .undefined

/-- A configuration and inputs for the examples. -/
def exampleConfig : Config :=
  { NUM_COLS := 4, BL := 8, JEDEC_DATA_BUS_BITS := 64, DEBUG_BANKS := true,
    VERIFICATION_OUTPUT := true }

/-- A heap with two payload blocks of 64 bytes (handles 1 and 2). -/
def exampleHeap : Heap :=
  { blocks := [List.replicate 64 17, List.replicate 64 34] }

/-- The error `Bank::write` reports for a column outside the bank. -/
def columnError (column : Nat) : Output :=
  .ERROR ("== Error - Bus Packet column " ++ toString column ++ " out of bounds")

/-- What `printData` needs of a payload to print it: it is `NULL`, or a block of at least four
`uint64_t`. -/
def Heap.printable (heap : Heap) (p : Ptr) : Bool :=
  if p = NULL then true
  else
    match heap.block p with
    | none => false
    | some buf => decide (UINT64_BYTES * 4 ≤ buf.length)

/-! ## Searching and updating a chain -/

theorem searchForRow_none_iff (r : Nat) (l : List DataStruct) :
    Bank.searchForRow r l = none ↔ ∀ n ∈ l, n.row ≠ r := by
  induction l with
  | nil => simp [Bank.searchForRow]
  | cons a t ih =>
    by_cases h : a.row = r
    · simp [Bank.searchForRow, h]
    · simp only [Bank.searchForRow, h, if_false, List.mem_cons, forall_eq_or_imp]
      cases hs : Bank.searchForRow r t with
      | none => simpa [h] using ih.mp hs
      | some i =>
        simp only [false_iff, reduceCtorEq]
        intro hc
        have := ih.mpr hc.2
        simp [hs] at this

theorem searchForRow_some (r : Nat) (l : List DataStruct) (i : Nat)
    (h : Bank.searchForRow r l = some i) :
    ∃ n, l[i]? = some n ∧ n.row = r ∧ Bank.stored r l = some n.data := by
  induction l generalizing i with
  | nil => simp [Bank.searchForRow] at h
  | cons a t ih =>
    by_cases ha : a.row = r
    · simp [Bank.searchForRow, ha] at h
      subst h
      exact ⟨a, by simp, ha, by simp [Bank.stored, ha]⟩
    · simp only [Bank.searchForRow, ha, if_false] at h
      cases hs : Bank.searchForRow r t with
      | none => simp [hs] at h
      | some j =>
        simp [hs] at h
        subst h
        obtain ⟨n, h1, h2, h3⟩ := ih j hs
        exact ⟨n, by simpa using h1, h2, by simp [Bank.stored, ha, h3]⟩

theorem stored_none_of_search (r : Nat) (l : List DataStruct)
    (h : Bank.searchForRow r l = none) : Bank.stored r l = none := by
  induction l with
  | nil => rfl
  | cons a t ih =>
    by_cases ha : a.row = r
    · simp [Bank.searchForRow, ha] at h
    · simp only [Bank.searchForRow, ha, if_false] at h
      cases hs : Bank.searchForRow r t with
      | none => simp [Bank.stored, ha, ih hs]
      | some j => simp [hs] at h

theorem stored_modify (r P : Nat) (l : List DataStruct) (i : Nat)
    (h : Bank.searchForRow r l = some i) (r1 : Nat) :
    Bank.stored r1 (l.modify (fun node => { node with data := P }) i)
      = if r1 = r then some P else Bank.stored r1 l := by
  induction l generalizing i with
  | nil => simp [Bank.searchForRow] at h
  | cons a t ih =>
    by_cases ha : a.row = r
    · simp [Bank.searchForRow, ha] at h
      subst h
      by_cases h1 : r1 = r
      · simp [List.modify_zero_cons, Bank.stored, ha, h1]
      · have : ¬ r = r1 := fun e => h1 e.symm
        simp [List.modify_zero_cons, Bank.stored, ha, h1, this]
    · simp only [Bank.searchForRow, ha, if_false] at h
      cases hs : Bank.searchForRow r t with
      | none => simp [hs] at h
      | some j =>
        simp [hs] at h
        subst h
        have := ih j hs
        by_cases h1 : r1 = r
        · subst h1
          simpa [List.modify_succ_cons, Bank.stored, ha] using this
        · simp only [h1, if_false] at this ⊢
          rw [List.modify_succ_cons]
          simp only [Bank.stored, this]

theorem rows_modify (P : Nat) (l : List DataStruct) (i : Nat) :
    (l.modify (fun node => { node with data := P }) i).map DataStruct.row
      = l.map DataStruct.row := by
  induction l generalizing i with
  | nil => cases i <;> simp
  | cons a t ih =>
    cases i with
    | zero => simp [List.modify_zero_cons]
    | succ j =>
      rw [List.modify_succ_cons]
      simp [ih j]

theorem stored_of_mem_nodup (l : List DataStruct) (hl : (l.map DataStruct.row).Nodup)
    (n : DataStruct) (hn : n ∈ l) : Bank.stored n.row l = some n.data := by
  induction l with
  | nil => simp at hn
  | cons a t ih =>
    simp only [List.map_cons, List.nodup_cons] at hl
    rcases List.mem_cons.mp hn with h | h
    · subst h
      simp [Bank.stored]
    · have hne : a.row ≠ n.row := by
        intro e
        exact hl.1 (e ▸ List.mem_map_of_mem DataStruct.row h)
      simp [Bank.stored, hne, ih hl.2 h]

/-! ## The effect of `write` -/

/-- What a returning `write` does to the bank. -/
theorem write_returned (cfg : Config) (heap : Heap) (b b1 : Bank) (p : BusPacket)
    (out : List Output) (h : Bank.write cfg heap b p = .returned (b1, out)) :
    p.column < cfg.NUM_COLS ∧ ∃ chain chain1, b.rowEntries[p.column]? = some chain ∧
      b1.rowEntries = b.rowEntries.set p.column chain1 ∧
      (∀ r1, Bank.stored r1 chain1 = if r1 = p.row then some p.data else Bank.stored r1 chain) ∧
      ((chain.map DataStruct.row).Nodup → (chain1.map DataStruct.row).Nodup) := by
  unfold Bank.write at h
  by_cases hc : cfg.NUM_COLS ≤ p.column
  · simp [hc] at h
  · simp only [hc, if_false] at h
    refine ⟨Nat.lt_of_not_le hc, ?_⟩
    cases hch : b.rowEntries[p.column]? with
    | none => simp [hch] at h
    | some chain =>
      simp only [hch] at h
      cases hs : Bank.searchForRow p.row chain with
      | none =>
        simp only [hs, Outcome.returned.injEq, Prod.mk.injEq] at h
        refine ⟨chain, { row := p.row, data := p.data } :: chain, rfl, ?_, ?_, ?_⟩
        · rw [← h.1]
        · intro r1
          by_cases h1 : r1 = p.row
          · simp [Bank.stored, h1]
          · have : ¬ p.row = r1 := fun e => h1 e.symm
            simp [Bank.stored, h1, this]
        · intro hn
          simp only [List.map_cons, List.nodup_cons]
          refine ⟨?_, hn⟩
          intro hm
          obtain ⟨n, hn1, hn2⟩ := List.mem_map.mp hm
          exact (searchForRow_none_iff p.row chain).mp hs n hn1 hn2
      | some i =>
        simp only [hs] at h
        have hb : b1.rowEntries = b.rowEntries.set p.column
            (chain.modify (fun node => { node with data := p.data }) i) := by
          by_cases hd : cfg.DEBUG_BANKS = true
          · simp only [hd, if_true] at h
            cases hp : p.printData heap with
            | returned w =>
              simp only [hp, Outcome.returned.injEq, Prod.mk.injEq] at h
              rw [← h.1]
            | exited code w => simp [hp] at h
            | undefined => simp [hp] at h
          · simp only [hd, Outcome.returned.injEq, Prod.mk.injEq] at h
            simp only [Bool.false_eq_true, if_false, Outcome.returned.injEq, Prod.mk.injEq] at h
            rw [← h.1]
        refine ⟨chain, _, rfl, hb, ?_, ?_⟩
        · intro r1
          exact stored_modify p.row p.data chain i hs r1
        · intro hn
          rw [rows_modify]
          exact hn

theorem lookup_write (cfg : Config) (heap : Heap) (b b1 : Bank) (p : BusPacket)
    (out : List Output) (h : Bank.write cfg heap b p = .returned (b1, out)) (c r : Nat) :
    Bank.lookup b1 c r
      = if c = p.column ∧ r = p.row then some p.data else Bank.lookup b c r := by
  obtain ⟨_, chain, chain1, h1, h2, h3, _⟩ := write_returned cfg heap b b1 p out h
  have hlt : p.column < b.rowEntries.length := by
    by_contra hge
    rw [List.getElem?_eq_none (Nat.le_of_not_lt hge)] at h1
    cases h1
  unfold Bank.lookup
  rw [h2]
  by_cases hc : c = p.column
  · subst hc
    rw [List.getElem?_set_self hlt, h1]
    simp only [h3 r, true_and]
  · have : ¬ p.column = c := fun e => hc e.symm
    rw [List.getElem?_set_ne this]
    simp [hc]

theorem rowsUnique_write (cfg : Config) (heap : Heap) (b b1 : Bank) (p : BusPacket)
    (out : List Output) (h : Bank.write cfg heap b p = .returned (b1, out))
    (hu : b.rowsUnique) : b1.rowsUnique := by
  obtain ⟨_, chain, chain1, h1, h2, _, h4⟩ := write_returned cfg heap b b1 p out h
  intro ch hch
  rw [h2] at hch
  rcases List.mem_or_eq_of_mem_set hch with hm | he
  · exact hu ch hm
  · subst he
    exact h4 (hu chain (List.mem_iff_getElem?.mpr ⟨_, h1⟩))

theorem length_write (cfg : Config) (heap : Heap) (b b1 : Bank) (p : BusPacket)
    (out : List Output) (h : Bank.write cfg heap b p = .returned (b1, out)) :
    b1.rowEntries.length = b.rowEntries.length := by
  obtain ⟨_, chain, chain1, _, h2, _, _⟩ := write_returned cfg heap b b1 p out h
  rw [h2, List.length_set]

/-! ## Runs of writes -/

theorem writeAll_cons_returned (cfg : Config) (b b2 : Bank) (hp : Heap) (p : BusPacket)
    (rest : List (Heap × BusPacket)) (out : List Output)
    (h : Bank.writeAll cfg b ((hp, p) :: rest) = .returned (b2, out)) :
    ∃ b1 o1 o2, Bank.write cfg hp b p = .returned (b1, o1) ∧
      Bank.writeAll cfg b1 rest = .returned (b2, o2) ∧ out = o1 ++ o2 := by
  simp only [Bank.writeAll] at h
  cases hw : Bank.write cfg hp b p with
  | returned r1 =>
    obtain ⟨b1, o1⟩ := r1
    simp only [hw] at h
    cases hr : Bank.writeAll cfg b1 rest with
    | returned r2 =>
      obtain ⟨b3, o2⟩ := r2
      simp only [hr, Outcome.returned.injEq, Prod.mk.injEq] at h
      exact ⟨b1, o1, o2, rfl, by rw [hr, h.1], h.2.symm⟩
    | exited code r2 => simp [hr] at h
    | undefined => simp [hr] at h
  | exited code r1 => simp [hw] at h
  | undefined => simp [hw] at h

theorem writeAll_append_returned (cfg : Config) (xs ys : List (Heap × BusPacket))
    (b b2 : Bank) (out : List Output)
    (h : Bank.writeAll cfg b (xs ++ ys) = .returned (b2, out)) :
    ∃ b1 o1 o2, Bank.writeAll cfg b xs = .returned (b1, o1) ∧
      Bank.writeAll cfg b1 ys = .returned (b2, o2) := by
  induction xs generalizing b out with
  | nil => exact ⟨b, [], out, rfl, h⟩
  | cons x xs ih =>
    obtain ⟨hp, p⟩ := x
    obtain ⟨b1, o1, o2, hw, hr, _⟩ := writeAll_cons_returned cfg b b2 hp p (xs ++ ys) out h
    obtain ⟨b3, o3, o4, hx, hy⟩ := ih b1 o2 hr
    exact ⟨b3, o1 ++ o3, o4, by simp [Bank.writeAll, hw, hx], hy⟩

theorem lookup_writeAll_frame (cfg : Config) (ops : List (Heap × BusPacket)) (b b2 : Bank)
    (out : List Output) (h : Bank.writeAll cfg b ops = .returned (b2, out)) (c r : Nat)
    (hno : ∀ op ∈ ops, ¬ (op.2.column = c ∧ op.2.row = r)) :
    Bank.lookup b2 c r = Bank.lookup b c r := by
  induction ops generalizing b out with
  | nil =>
    simp only [Bank.writeAll, Outcome.returned.injEq, Prod.mk.injEq] at h
    rw [← h.1]
  | cons x xs ih =>
    obtain ⟨hp, p⟩ := x
    obtain ⟨b1, o1, o2, hw, hr, _⟩ := writeAll_cons_returned cfg b b2 hp p xs out h
    rw [ih b1 o2 hr (fun op hop => hno op (List.mem_cons_of_mem _ hop)),
      lookup_write cfg hp b b1 p o1 hw c r]
    have := hno (hp, p) (List.mem_cons_self _ _)
    have hne : ¬ (c = p.column ∧ r = p.row) := fun e => this ⟨e.1.symm, e.2.symm⟩
    simp [hne]

theorem rowsUnique_writeAll (cfg : Config) (ops : List (Heap × BusPacket)) (b b2 : Bank)
    (out : List Output) (h : Bank.writeAll cfg b ops = .returned (b2, out))
    (hu : b.rowsUnique) : b2.rowsUnique := by
  induction ops generalizing b out with
  | nil =>
    simp only [Bank.writeAll, Outcome.returned.injEq, Prod.mk.injEq] at h
    rw [← h.1]
    exact hu
  | cons x xs ih =>
    obtain ⟨hp, p⟩ := x
    obtain ⟨b1, o1, o2, hw, hr, _⟩ := writeAll_cons_returned cfg b b2 hp p xs out h
    exact ih b1 o2 hr (rowsUnique_write cfg hp b b1 p o1 hw hu)

theorem length_writeAll (cfg : Config) (ops : List (Heap × BusPacket)) (b b2 : Bank)
    (out : List Output) (h : Bank.writeAll cfg b ops = .returned (b2, out)) :
    b2.rowEntries.length = b.rowEntries.length := by
  induction ops generalizing b out with
  | nil =>
    simp only [Bank.writeAll, Outcome.returned.injEq, Prod.mk.injEq] at h
    rw [← h.1]
  | cons x xs ih =>
    obtain ⟨hp, p⟩ := x
    obtain ⟨b1, o1, o2, hw, hr, _⟩ := writeAll_cons_returned cfg b b2 hp p xs out h
    rw [ih b1 o2 hr, length_write cfg hp b b1 p o1 hw]

theorem inRange_writeAll (cfg : Config) (ops : List (Heap × BusPacket)) (b b2 : Bank)
    (out : List Output) (h : Bank.writeAll cfg b ops = .returned (b2, out)) :
    ∀ op ∈ ops, op.2.column < cfg.NUM_COLS := by
  induction ops generalizing b out with
  | nil => simp
  | cons x xs ih =>
    obtain ⟨hp, p⟩ := x
    obtain ⟨b1, o1, o2, hw, hr, _⟩ := writeAll_cons_returned cfg b b2 hp p xs out h
    intro op hop
    rcases List.mem_cons.mp hop with e | e
    · subst e
      exact (write_returned cfg hp b b1 p o1 hw).1
    · exact ih b1 o2 hr op e

/-! ## The effect of `read` -/

/-- A read whose search reaches a stored reference returns that reference and allocates
nothing. -/
theorem read_hit (cfg : Config) (heap : Heap) (b : Bank) (q : BusPacket) (d : Ptr)
    (h : Bank.lookup b q.column q.row = some d) :
    Bank.read cfg heap b q
      = .returned (b, heap, { q with data := d, busPacketType := .DATA }) := by
  unfold Bank.lookup at h
  unfold Bank.read
  cases hch : b.rowEntries[q.column]? with
  | none => simp [hch] at h
  | some chain =>
    simp only [hch] at h ⊢
    cases hs : Bank.searchForRow q.row chain with
    | none =>
      rw [stored_none_of_search q.row chain hs] at h
      cases h
    | some i =>
      obtain ⟨n, h1, _, h3⟩ := searchForRow_some q.row chain i hs
      rw [h3] at h
      cases h
      simp only [h1]

/-- A read whose search reaches no node returns a pointer to a new block. -/
theorem read_miss (cfg : Config) (heap : Heap) (b : Bank) (q : BusPacket)
    (hc : q.column < b.rowEntries.length)
    (h : Bank.lookup b q.column q.row = none)
    (hsz : LONG_BYTES ≤ cfg.BL * (cfg.JEDEC_DATA_BUS_BITS / 8)) :
    Bank.read cfg heap b q
      = .returned (b, { blocks := heap.blocks ++ [sentinelBuffer cfg] },
          { q with data := heap.blocks.length + 1, busPacketType := .DATA }) := by
  unfold Bank.lookup at h
  unfold Bank.read
  cases hch : b.rowEntries[q.column]? with
  | none =>
    rw [List.getElem?_eq_none_iff] at hch
    omega
  | some chain =>
    simp only [hch] at h ⊢
    cases hs : Bank.searchForRow q.row chain with
    | none =>
      simp only [Heap.calloc, Heap.storeLong, Heap.block, NULL, Nat.mul_one]
      simp only [Nat.add_one_ne_zero, if_false, Nat.add_sub_cancel,
        List.getElem?_concat_length, List.length_replicate]
      simp only [Nat.zero_add, Nat.mul_one, hsz, if_true, Nat.mul_zero, List.take_zero,
        List.nil_append, List.drop_replicate, sentinelBuffer]
      congr 3
      simp
    | some i =>
      obtain ⟨n, _, _, h3⟩ := searchForRow_some q.row chain i hs
      rw [h3] at h
      cases h

/-! ## Bank storage: the contract of `read` and `write` -/

/-- C1. Read-after-write: once `write` of a packet `w` (column `c`, row `r`, payload `P`) has
returned, followed by any run of returning writes none of which targets `(c, r)`, a `read` of
a packet addressed to `(c, r)` returns with the packet's data equal to `P` itself; the heap is
the one before the call, so no buffer was created. The column is `< NUM_COLS`. -/
theorem C1_read_after_write (cfg : Config) (b b1 : Bank) (out : List Output) (h0 : Heap)
    (w : BusPacket) (later : List (Heap × BusPacket))
    (hrun : Bank.writeAll cfg b ((h0, w) :: later) = .returned (b1, out))
    (hlater : ∀ op ∈ later, ¬ (op.2.column = w.column ∧ op.2.row = w.row))
    (heap : Heap) (q : BusPacket) (hqc : q.column = w.column) (hqr : q.row = w.row) :
    w.column < cfg.NUM_COLS ∧
    Bank.read cfg heap b1 q
      = .returned (b1, heap, { q with data := w.data, busPacketType := .DATA }) := by
  obtain ⟨b0, o1, o2, hw, hr, _⟩ := writeAll_cons_returned cfg b b1 h0 w later out hrun
  refine ⟨(write_returned cfg h0 b b0 w o1 hw).1, ?_⟩
  apply read_hit
  rw [hqc, hqr, lookup_writeAll_frame cfg later b0 b1 o2 hr w.column w.row hlater,
    lookup_write cfg h0 b b0 w o1 hw]
  simp

/-- Witness for C1: write `(1, 5, P = 1)`, then writes to `(1, 6)` and `(2, 5)`, then a read
of `(1, 5)`. -/
theorem C1_read_after_write_witness :
    Bank.read exampleConfig exampleHeap
      { rowEntries := [[], [⟨6, 2⟩, ⟨5, 1⟩], [⟨5, 2⟩], []] }
      (BusPacket.new .READ 4096 1 5 0 0 NULL)
      = .returned ({ rowEntries := [[], [⟨6, 2⟩, ⟨5, 1⟩], [⟨5, 2⟩], []] }, exampleHeap,
          BusPacket.new .DATA 4096 1 5 0 0 1) :=
  (C1_read_after_write exampleConfig (Bank.new exampleConfig)
    { rowEntries := [[], [⟨6, 2⟩, ⟨5, 1⟩], [⟨5, 2⟩], []] } []
    exampleHeap (BusPacket.new .WRITE 4096 1 5 0 0 1)
    [(exampleHeap, BusPacket.new .WRITE 4100 1 6 0 0 2),
     (exampleHeap, BusPacket.new .WRITE_P 4104 2 5 0 0 2)]
    (by decide) (by decide) exampleHeap (BusPacket.new .READ 4096 1 5 0 0 NULL)
    rfl rfl).2

/-- C2. Last-writer-wins: after a returning run of writes `earlier ++ [w] ++ later`, where `w`
is the last write of the run to its `(column, row)` pair, a `read` of that pair returns the
payload of `w`; and when the starting bank holds at most one node per row in each chain, every
node of that column's chain with that row carries the payload of `w`, so none carries an
earlier payload of the run that is a different reference. -/
theorem C2_last_writer_wins (cfg : Config) (b b1 : Bank) (out : List Output)
    (earlier later : List (Heap × BusPacket)) (h0 : Heap) (w : BusPacket)
    (hrun : Bank.writeAll cfg b (earlier ++ (h0, w) :: later) = .returned (b1, out))
    (hlater : ∀ op ∈ later, ¬ (op.2.column = w.column ∧ op.2.row = w.row))
    (heap : Heap) (q : BusPacket) (hqc : q.column = w.column) (hqr : q.row = w.row) :
    w.column < cfg.NUM_COLS ∧
    Bank.read cfg heap b1 q
      = .returned (b1, heap, { q with data := w.data, busPacketType := .DATA }) ∧
    (b.rowsUnique → ∃ chain, b1.rowEntries[w.column]? = some chain ∧
      (∀ node ∈ chain, node.row = w.row → node.data = w.data) ∧
      (∀ e ∈ earlier, e.2.column = w.column → e.2.row = w.row → e.2.data ≠ w.data →
        ∀ node ∈ chain, node.row = w.row → node.data ≠ e.2.data)) := by
  obtain ⟨b0, o1, o2, hpre, hpost⟩ :=
    writeAll_append_returned cfg earlier ((h0, w) :: later) b b1 out hrun
  obtain ⟨b2, o3, o4, hw, hr, _⟩ := writeAll_cons_returned cfg b0 b1 h0 w later o2 hpost
  have hlook : Bank.lookup b1 w.column w.row = some w.data := by
    rw [lookup_writeAll_frame cfg later b2 b1 o4 hr w.column w.row hlater,
      lookup_write cfg h0 b0 b2 w o3 hw]
    simp
  refine ⟨(write_returned cfg h0 b0 b2 w o3 hw).1, ?_, ?_⟩
  · apply read_hit
    rw [hqc, hqr, hlook]
  · intro hu
    have hu1 : b1.rowsUnique := rowsUnique_writeAll cfg _ b b1 out hrun hu
    unfold Bank.lookup at hlook
    cases hch : b1.rowEntries[w.column]? with
    | none => simp [hch] at hlook
    | some chain =>
      simp only [hch] at hlook
      have hall : ∀ node ∈ chain, node.row = w.row → node.data = w.data := by
        intro node hn hrow
        have h1 := stored_of_mem_nodup chain (hu1 chain (List.mem_iff_getElem?.mpr ⟨_, hch⟩))
          node hn
        rw [hrow, hlook] at h1
        exact (Option.some.inj h1).symm
      refine ⟨chain, rfl, hall, ?_⟩
      intro e _ _ _ hne node hn hrow hd
      exact hne (hd.symm.trans (hall node hn hrow))

/-- Witness for C2: writes of payloads 1 then 2 to `(1, 5)` with a write to `(1, 6)` in
between, from the fresh bank; the read of `(1, 5)` yields payload 2. -/
theorem C2_last_writer_wins_witness :
    (Bank.new exampleConfig).rowsUnique ∧
    Bank.read exampleConfig exampleHeap { rowEntries := [[], [⟨6, 1⟩, ⟨5, 2⟩], [], []] }
      (BusPacket.new .READ_P 4096 1 5 0 0 NULL)
      = .returned ({ rowEntries := [[], [⟨6, 1⟩, ⟨5, 2⟩], [], []] }, exampleHeap,
          BusPacket.new .DATA 4096 1 5 0 0 2) :=
  ⟨by decide, (C2_last_writer_wins exampleConfig (Bank.new exampleConfig)
    { rowEntries := [[], [⟨6, 1⟩, ⟨5, 2⟩], [], []] }
    [Output.PRINTN " -- Bank 0 writing to physical address 0x1000:", Output.PRINTN "\x27",
      Output.PRINTN "2222222222222222", Output.PRINTN "2222222222222222",
      Output.PRINTN "2222222222222222", Output.PRINTN "2222222222222222",
      Output.PRINTN "\x27", Output.PRINT ""]
    [(exampleHeap, BusPacket.new .WRITE 4096 1 5 0 0 1),
     (exampleHeap, BusPacket.new .WRITE 4100 1 6 0 0 1)]
    [] exampleHeap (BusPacket.new .WRITE 4096 1 5 0 0 2)
    (by decide) (by decide) exampleHeap (BusPacket.new .READ_P 4096 1 5 0 0 NULL)
    rfl rfl).2.1⟩

theorem lookup_new (cfg : Config) (c r : Nat) : Bank.lookup (Bank.new cfg) c r = none := by
  unfold Bank.lookup Bank.new
  by_cases hc : c < cfg.NUM_COLS
  · simp [List.getElem?_replicate, hc, Bank.stored]
  · simp [List.getElem?_replicate, hc]

theorem sentinelBuffer_length (cfg : Config)
    (hsz : LONG_BYTES ≤ cfg.BL * (cfg.JEDEC_DATA_BUS_BITS / 8)) :
    (sentinelBuffer cfg).length = cfg.BL * (cfg.JEDEC_DATA_BUS_BITS / 8) := by
  simp only [sentinelBuffer, LONG_BYTES, bytesLE, List.length_append, List.length_cons,
    List.length_nil, List.length_replicate] at hsz ⊢
  omega

theorem sentinelBuffer_word (cfg : Config) :
    wordLE (((sentinelBuffer cfg).drop (LONG_BYTES * 0)).take LONG_BYTES) = 0xdeadbeef := by
  simp [sentinelBuffer, LONG_BYTES, bytesLE, wordLE]

theorem sentinelBuffer_rest (cfg : Config) (i : Nat) (h1 : LONG_BYTES ≤ i)
    (h2 : i < (sentinelBuffer cfg).length) : (sentinelBuffer cfg)[i]? = some 0 := by
  have hl : (bytesLE LONG_BYTES 0xdeadbeef).length = LONG_BYTES := by
    simp [LONG_BYTES, bytesLE]
  unfold sentinelBuffer at h2 ⊢
  rw [List.getElem?_append_right (by omega)]
  rw [List.length_append, List.length_replicate] at h2
  rw [List.getElem?_replicate]
  simp only [ite_eq_left_iff, reduceCtorEq, imp_false, not_not]
  omega

/-- C3. Sentinel on miss: after any returning run of writes on a freshly constructed bank,
none of which targets `(column, row)`, a `read` of a packet with that key and
`column < NUM_COLS` returns (no error); the packet's data is a block that did not exist
before, of exactly `BL * (JEDEC_DATA_BUS_BITS / 8)` bytes, whose first `long` is `0xDEADBEEF`
and whose bytes after that word are all zero; the other blocks are as before. The buffer must
be able to hold the `long` stored into it. -/
theorem C3_sentinel_on_miss (cfg : Config) (ops : List (Heap × BusPacket)) (b1 : Bank)
    (out : List Output)
    (hrun : Bank.writeAll cfg (Bank.new cfg) ops = .returned (b1, out))
    (heap : Heap) (q : BusPacket) (hq : q.column < cfg.NUM_COLS)
    (hno : ∀ op ∈ ops, ¬ (op.2.column = q.column ∧ op.2.row = q.row))
    (hsz : LONG_BYTES ≤ cfg.BL * (cfg.JEDEC_DATA_BUS_BITS / 8)) :
    ∃ heap1 garbage buf,
      Bank.read cfg heap b1 q
        = .returned (b1, heap1, { q with data := garbage, busPacketType := .DATA }) ∧
      garbage ≠ NULL ∧ heap.block garbage = none ∧ heap1.block garbage = some buf ∧
      (∀ p, p ≠ garbage → heap1.block p = heap.block p) ∧
      buf.length = cfg.BL * (cfg.JEDEC_DATA_BUS_BITS / 8) ∧
      heap1.loadLong garbage 0 = some 0xDEADBEEF ∧
      (∀ i, LONG_BYTES ≤ i → i < buf.length → buf[i]? = some 0) := by
  have hlen : b1.rowEntries.length = cfg.NUM_COLS := by
    rw [length_writeAll cfg ops _ b1 out hrun]
    simp [Bank.new]
  have hlook : Bank.lookup b1 q.column q.row = none := by
    rw [lookup_writeAll_frame cfg ops _ b1 out hrun q.column q.row hno, lookup_new]
  have hblk : Heap.block { blocks := heap.blocks ++ [sentinelBuffer cfg] }
      (heap.blocks.length + 1) = some (sentinelBuffer cfg) := by
    simp [Heap.block, NULL]
  refine ⟨{ blocks := heap.blocks ++ [sentinelBuffer cfg] }, heap.blocks.length + 1,
    sentinelBuffer cfg, read_miss cfg heap b1 q (by omega) hlook hsz, ?_, ?_, hblk, ?_,
    sentinelBuffer_length cfg hsz, ?_, sentinelBuffer_rest cfg⟩
  · simp [NULL]
  · simp [Heap.block, NULL]
  · intro p hp
    unfold Heap.block
    by_cases h0 : p = NULL
    · simp [h0]
    · simp only [h0, if_false]
      simp only [NULL] at h0
      by_cases hlt : p - 1 < heap.blocks.length
      · rw [List.getElem?_append_left hlt]
      · have hp1 := Nat.lt_or_gt_of_ne hp
        have h01 := Nat.pos_of_ne_zero h0
        have hge : heap.blocks.length + 1 ≤ Nat.sub p 1 := by
          show heap.blocks.length + 1 ≤ @HSub.hSub Nat Nat Nat _ p 1
          have hlt1 : ¬ (@HSub.hSub Nat Nat Nat _ p 1 < heap.blocks.length) := hlt
          omega
        have hge1 : heap.blocks.length + 1 ≤ p - 1 := hge
        rw [List.getElem?_eq_none (by simp; exact hge1),
          List.getElem?_eq_none (Nat.le_of_succ_le hge1)]
  · unfold Heap.loadLong
    rw [hblk]
    have := sentinelBuffer_length cfg hsz
    simp only [Nat.zero_add, Nat.mul_one, this, hsz, if_true]
    rw [sentinelBuffer_word]

/-- Witness for C3: after writes to `(1, 5)` and `(2, 6)` on the fresh bank, the read of
`(1, 6)` returns a new block (handle 3). -/
theorem C3_sentinel_on_miss_witness :
    ∃ heap1 garbage buf,
      Bank.read exampleConfig exampleHeap { rowEntries := [[], [⟨5, 1⟩], [⟨6, 2⟩], []] }
          (BusPacket.new .READ 4096 1 6 0 0 NULL)
        = .returned ({ rowEntries := [[], [⟨5, 1⟩], [⟨6, 2⟩], []] }, heap1,
            { BusPacket.new .READ 4096 1 6 0 0 NULL with
              data := garbage, busPacketType := .DATA }) ∧
      garbage ≠ NULL ∧ exampleHeap.block garbage = none ∧ heap1.block garbage = some buf ∧
      (∀ p, p ≠ garbage → heap1.block p = exampleHeap.block p) ∧
      buf.length = exampleConfig.BL * (exampleConfig.JEDEC_DATA_BUS_BITS / 8) ∧
      heap1.loadLong garbage 0 = some 0xDEADBEEF ∧
      (∀ i, LONG_BYTES ≤ i → i < buf.length → buf[i]? = some 0) :=
  C3_sentinel_on_miss exampleConfig
    [(exampleHeap, BusPacket.new .WRITE 4096 1 5 0 0 1),
     (exampleHeap, BusPacket.new .WRITE 4100 2 6 0 0 2)]
    { rowEntries := [[], [⟨5, 1⟩], [⟨6, 2⟩], []] } [] (by decide)
    exampleHeap (BusPacket.new .READ 4096 1 6 0 0 NULL) (by decide) (by decide) (by decide)

theorem printData_returns (heap : Heap) (p : BusPacket) (h : heap.printable p.data = true) :
    ∃ words, p.printData heap = .returned words := by
  unfold BusPacket.printData
  by_cases h0 : p.data = NULL
  · simp [h0]
  · cases hb : heap.block p.data with
    | none => simp [Heap.printable, h0, hb] at h
    | some buf =>
      have hl : UINT64_BYTES * 4 ≤ buf.length := by simpa [Heap.printable, h0, hb] using h
      simp only [UINT64_BYTES] at hl
      have e0 : 8 * (0 + 1) ≤ buf.length := by omega
      have e1 : 8 * (0 + 1 + 1) ≤ buf.length := by omega
      have e2 : 8 * (0 + 1 + 1 + 1) ≤ buf.length := by omega
      have e3 : 8 * (0 + 1 + 1 + 1 + 1) ≤ buf.length := by omega
      simp only [h0, if_false, BusPacket.printDataLoop, Heap.loadUInt64, hb, UINT64_BYTES,
        e0, e1, e2, e3, if_true]
      exact ⟨_, rfl⟩

/-- An in-range write on a bank with `NUM_COLS` chains returns, provided the debug trace can
print the payload. -/
theorem write_returns (cfg : Config) (heap : Heap) (b : Bank) (p : BusPacket)
    (hlen : b.rowEntries.length = cfg.NUM_COLS) (hc : p.column < cfg.NUM_COLS)
    (hd : cfg.DEBUG_BANKS = false ∨ heap.printable p.data = true) :
    ∃ b1 out, Bank.write cfg heap b p = .returned (b1, out) := by
  unfold Bank.write
  have hc1 : ¬ cfg.NUM_COLS ≤ p.column := Nat.not_le_of_lt hc
  have hlt : p.column < b.rowEntries.length := by omega
  simp only [hc1, if_false, List.getElem?_eq_getElem hlt]
  cases hs : Bank.searchForRow p.row b.rowEntries[p.column] with
  | none => exact ⟨_, _, rfl⟩
  | some i =>
    by_cases hdb : cfg.DEBUG_BANKS = true
    · rcases hd with hd | hd
      · rw [hd] at hdb
        cases hdb
      · obtain ⟨words, hw⟩ := printData_returns heap p hd
        simp only [hdb, if_true, hw]
        exact ⟨_, _, rfl⟩
    · simp only [hdb]
      exact ⟨_, _, rfl⟩

/-- A run of in-range writes on a bank with `NUM_COLS` chains returns, provided the debug
trace can print each payload in the heap of its write. -/
theorem writeAll_returns (cfg : Config) (ops : List (Heap × BusPacket)) (b : Bank)
    (hlen : b.rowEntries.length = cfg.NUM_COLS)
    (hops : ∀ op ∈ ops, op.2.column < cfg.NUM_COLS ∧
      (cfg.DEBUG_BANKS = false ∨ op.1.printable op.2.data = true)) :
    ∃ b1 out, Bank.writeAll cfg b ops = .returned (b1, out) := by
  induction ops generalizing b with
  | nil => exact ⟨b, [], rfl⟩
  | cons x xs ih =>
    obtain ⟨hp, p⟩ := x
    have hx := hops (hp, p) (List.mem_cons_self _ _)
    obtain ⟨b1, o1, hw⟩ := write_returns cfg hp b p hlen hx.1 hx.2
    obtain ⟨b2, o2, hr⟩ := ih b1 ((length_write cfg hp b b1 p o1 hw).trans hlen)
      (fun op hop => hops op (List.mem_cons_of_mem _ hop))
    exact ⟨b2, o1 ++ o2, by simp [Bank.writeAll, hw, hr]⟩

/-- C4. Out-of-range write is fatal and atomic: `write` ends in `exit` exactly when the
packet's column is `>= NUM_COLS`; it then reports the column error with code `-1` and the bank
it leaves is the bank it was given. An in-range write on a bank with `NUM_COLS` chains
returns (given a printable payload when the debug trace is on). -/
theorem C4_out_of_range_write_fatal (cfg : Config) (heap : Heap) (b : Bank) (p : BusPacket) :
    ((∃ code r, Bank.write cfg heap b p = .exited code r) ↔ cfg.NUM_COLS ≤ p.column) ∧
    (Bank.write cfg heap b p = .exited (-1) (b, [columnError p.column])
      ↔ cfg.NUM_COLS ≤ p.column) ∧
    (∀ code b1 out, Bank.write cfg heap b p = .exited code (b1, out) →
      b1 = b ∧ b1.rowEntries = b.rowEntries ∧ out = [columnError p.column]) ∧
    (b.rowEntries.length = cfg.NUM_COLS → p.column < cfg.NUM_COLS →
      (cfg.DEBUG_BANKS = false ∨ heap.printable p.data = true) →
      ∃ b1 out, Bank.write cfg heap b p = .returned (b1, out)) := by
  have hfat : cfg.NUM_COLS ≤ p.column →
      Bank.write cfg heap b p = .exited (-1) (b, [columnError p.column]) := by
    intro hc
    simp [Bank.write, hc, columnError, dec]
  have hnot : ¬ cfg.NUM_COLS ≤ p.column →
      ∀ code r, Bank.write cfg heap b p ≠ .exited code r := by
    intro hc code r
    unfold Bank.write
    simp only [hc, if_false]
    cases hch : b.rowEntries[p.column]? with
    | none => simp
    | some chain =>
      simp only []
      cases hs : Bank.searchForRow p.row chain with
      | none => simp
      | some i =>
        simp only []
        by_cases hd : cfg.DEBUG_BANKS = true
        · simp only [hd, if_true]
          unfold BusPacket.printData
          by_cases h0 : p.data = NULL
          · simp [h0]
          · simp only [h0, if_false, BusPacket.printDataLoop]
            cases heap.loadUInt64 p.data 0 <;> cases heap.loadUInt64 p.data (0 + 1) <;>
              cases heap.loadUInt64 p.data (0 + 1 + 1) <;>
              cases heap.loadUInt64 p.data (0 + 1 + 1 + 1) <;> simp
        · simp [hd]
  refine ⟨⟨?_, fun hc => ⟨_, _, hfat hc⟩⟩, ⟨?_, hfat⟩, ?_, write_returns cfg heap b p⟩
  · rintro ⟨code, r, h⟩
    by_contra hc
    exact hnot hc code r h
  · intro h
    by_contra hc
    exact hnot hc _ _ h
  · intro code b1 out h
    by_cases hc : cfg.NUM_COLS ≤ p.column
    · rw [hfat hc] at h
      simp only [Outcome.exited.injEq, Prod.mk.injEq] at h
      exact ⟨h.2.1.symm, by rw [h.2.1], h.2.2.symm⟩
    · exact absurd h (hnot hc code (b1, out))

/-- Witness for C4: on the fresh bank with `NUM_COLS = 4` the write to column 7 exits with the
column error and the bank is the fresh bank; the write to column 3 returns. -/
theorem C4_out_of_range_write_fatal_witness :
    Bank.write exampleConfig exampleHeap (Bank.new exampleConfig)
        (BusPacket.new .WRITE 4096 7 5 0 0 1)
      = .exited (-1) (Bank.new exampleConfig, [columnError 7]) ∧
    ∃ b1 out, Bank.write exampleConfig exampleHeap (Bank.new exampleConfig)
        (BusPacket.new .WRITE 4096 3 5 0 0 1) = .returned (b1, out) :=
  ⟨(C4_out_of_range_write_fatal exampleConfig exampleHeap (Bank.new exampleConfig)
      (BusPacket.new .WRITE 4096 7 5 0 0 1)).2.1.mpr (by decide),
   (C4_out_of_range_write_fatal exampleConfig exampleHeap (Bank.new exampleConfig)
      (BusPacket.new .WRITE 4096 3 5 0 0 1)).2.2.2 (by decide) (by decide)
      (Or.inr (by decide))⟩

/-- The response of a read (heap and packet) depends on the chain only through what a search
for the row reaches in it. -/
theorem read_congr (cfg : Config) (heap : Heap) (b b1 : Bank) (q : BusPacket)
    (chain chain1 : List DataStruct) (h : b.rowEntries[q.column]? = some chain)
    (h1 : b1.rowEntries[q.column]? = some chain1)
    (hs : Bank.stored q.row chain = Bank.stored q.row chain1) :
    (Bank.read cfg heap b1 q).map Prod.snd = (Bank.read cfg heap b q).map Prod.snd := by
  unfold Bank.read
  simp only [h, h1]
  cases hs0 : Bank.searchForRow q.row chain with
  | none =>
    cases hs1 : Bank.searchForRow q.row chain1 with
    | none =>
      simp only []
      cases ((heap.calloc (cfg.BL * (cfg.JEDEC_DATA_BUS_BITS / 8)) 1).2.storeLong
        (heap.calloc (cfg.BL * (cfg.JEDEC_DATA_BUS_BITS / 8)) 1).1 0 0xdeadbeef) <;>
        simp [Outcome.map]
    | some j =>
      obtain ⟨n, _, _, h3⟩ := searchForRow_some q.row chain1 j hs1
      rw [stored_none_of_search q.row chain hs0, h3] at hs
      cases hs
  | some i =>
    obtain ⟨n, hn1, _, hn3⟩ := searchForRow_some q.row chain i hs0
    cases hs1 : Bank.searchForRow q.row chain1 with
    | none =>
      rw [stored_none_of_search q.row chain1 hs1, hn3] at hs
      cases hs
    | some j =>
      obtain ⟨m, hm1, _, hm3⟩ := searchForRow_some q.row chain1 j hs1
      rw [hn3, hm3] at hs
      simp only [hn1, hm1, Outcome.map, Option.some.inj hs]

/-- C5. Independence of keys: after a returning `write` of `w`, a `read` of any key other than
the key of `w` gives the same response (heap and packet) as before the write, whatever it was;
with `column < NUM_COLS`, on a bank with `NUM_COLS` chains and a buffer size that holds a
`long`, both reads return, with one and the same response. After a further returning write to
another row of the column of `w`, reading the row of `w` yields the payload of `w` and reading
the other row yields the payload of the second write. -/
theorem C5_independence_of_keys (cfg : Config) (heap0 : Heap) (b b1 : Bank) (w : BusPacket)
    (out : List Output) (hw : Bank.write cfg heap0 b w = .returned (b1, out)) :
    (∀ heap q, ¬ (q.column = w.column ∧ q.row = w.row) →
      (Bank.read cfg heap b1 q).map Prod.snd = (Bank.read cfg heap b q).map Prod.snd) ∧
    (∀ heap q, ¬ (q.column = w.column ∧ q.row = w.row) → q.column < cfg.NUM_COLS →
      b.rowEntries.length = cfg.NUM_COLS →
      LONG_BYTES ≤ cfg.BL * (cfg.JEDEC_DATA_BUS_BITS / 8) →
      ∃ res, Bank.read cfg heap b q = .returned (b, res) ∧
        Bank.read cfg heap b1 q = .returned (b1, res)) ∧
    (∀ heap1 w2 b2 out2, Bank.write cfg heap1 b1 w2 = .returned (b2, out2) →
      w2.column = w.column → w2.row ≠ w.row →
      ∀ heap q q2, q.column = w.column → q.row = w.row →
        q2.column = w2.column → q2.row = w2.row →
        Bank.read cfg heap b2 q
          = .returned (b2, heap, { q with data := w.data, busPacketType := .DATA }) ∧
        Bank.read cfg heap b2 q2
          = .returned (b2, heap, { q2 with data := w2.data, busPacketType := .DATA })) := by
  have hlook := lookup_write cfg heap0 b b1 w out hw
  have hlen := length_write cfg heap0 b b1 w out hw
  refine ⟨?_, ?_, ?_⟩
  · intro heap q hq
    have hl := hlook q.column q.row
    simp only [hq, if_false] at hl
    unfold Bank.lookup at hl
    cases hch : b.rowEntries[q.column]? with
    | none =>
      have hch1 : b1.rowEntries[q.column]? = none := by
        rw [List.getElem?_eq_none_iff] at hch ⊢
        omega
      simp [Bank.read, hch, hch1]
    | some chain =>
      cases hch1 : b1.rowEntries[q.column]? with
      | none =>
        rw [List.getElem?_eq_none_iff] at hch1
        have := (List.getElem?_eq_some_iff.mp hch).1
        omega
      | some chain1 =>
        simp only [hch, hch1] at hl
        exact read_congr cfg heap b b1 q chain chain1 hch hch1 hl.symm
  · intro heap q hq hc hl hsz
    have hl1 := hlook q.column q.row
    simp only [hq, if_false] at hl1
    cases hd : Bank.lookup b q.column q.row with
    | none =>
      exact ⟨_, read_miss cfg heap b q (by omega) hd hsz,
        read_miss cfg heap b1 q (by omega) (hl1.trans hd) hsz⟩
    | some d => exact ⟨_, read_hit cfg heap b q d hd, read_hit cfg heap b1 q d (hl1.trans hd)⟩
  · intro heap1 w2 b2 out2 hw2 hc2 hr2 heap q q2 hqc hqr hq2c hq2r
    have hlook2 := lookup_write cfg heap1 b1 b2 w2 out2 hw2
    constructor
    · apply read_hit
      rw [hqc, hqr, hlook2, hlook]
      have : ¬ (w.column = w2.column ∧ w.row = w2.row) := fun e => hr2 e.2.symm
      simp [this]
    · apply read_hit
      rw [hq2c, hq2r, hlook2]
      simp

/-- Witness for C5: on a bank holding `(1, 5) -> 1`, the write of `(1, 6) -> 2` returns; the
reads of `(1, 5)` (present) and of `(2, 5)` (absent) respond as before it. -/
theorem C5_independence_of_keys_witness :
    (Bank.read exampleConfig exampleHeap { rowEntries := [[], [⟨6, 2⟩, ⟨5, 1⟩], [], []] }
        (BusPacket.new .READ 4096 1 5 0 0 NULL)).map Prod.snd
      = .returned (exampleHeap, BusPacket.new .DATA 4096 1 5 0 0 1) ∧
    (Bank.read exampleConfig exampleHeap { rowEntries := [[], [⟨6, 2⟩, ⟨5, 1⟩], [], []] }
        (BusPacket.new .READ 4096 2 5 0 0 NULL)).map Prod.snd
      = (Bank.read exampleConfig exampleHeap { rowEntries := [[], [⟨5, 1⟩], [], []] }
        (BusPacket.new .READ 4096 2 5 0 0 NULL)).map Prod.snd :=
  ⟨((C5_independence_of_keys exampleConfig exampleHeap
      { rowEntries := [[], [⟨5, 1⟩], [], []] } { rowEntries := [[], [⟨6, 2⟩, ⟨5, 1⟩], [], []] }
      (BusPacket.new .WRITE 4100 1 6 0 0 2) [] (by decide)).1 exampleHeap
      (BusPacket.new .READ 4096 1 5 0 0 NULL) (by decide)).trans (by decide),
   (C5_independence_of_keys exampleConfig exampleHeap
      { rowEntries := [[], [⟨5, 1⟩], [], []] } { rowEntries := [[], [⟨6, 2⟩, ⟨5, 1⟩], [], []] }
      (BusPacket.new .WRITE 4100 1 6 0 0 2) [] (by decide)).1 exampleHeap
      (BusPacket.new .READ 4096 2 5 0 0 NULL) (by decide)⟩

/-- An in-range read on a bank with `NUM_COLS` chains returns, leaving every field of the
packet but its kind and data as it was, and the kind `DATA`. -/
theorem read_returns (cfg : Config) (heap : Heap) (b : Bank) (q : BusPacket)
    (hlen : b.rowEntries.length = cfg.NUM_COLS) (hq : q.column < cfg.NUM_COLS)
    (hsz : LONG_BYTES ≤ cfg.BL * (cfg.JEDEC_DATA_BUS_BITS / 8)) :
    ∃ heap1 d, Bank.read cfg heap b q
      = .returned (b, heap1, { q with data := d, busPacketType := .DATA }) := by
  cases hd : Bank.lookup b q.column q.row with
  | none => exact ⟨_, _, read_miss cfg heap b q (by omega) hd hsz⟩
  | some d => exact ⟨_, _, read_hit cfg heap b q d hd⟩

theorem read_never_exits (cfg : Config) (heap : Heap) (b : Bank) (q : BusPacket) (code : Int)
    (r : Bank × Heap × BusPacket) : Bank.read cfg heap b q ≠ .exited code r := by
  unfold Bank.read
  cases b.rowEntries[q.column]? with
  | none => simp
  | some chain =>
    simp only []
    cases Bank.searchForRow q.row chain with
    | none =>
      simp only []
      cases ((heap.calloc (cfg.BL * (cfg.JEDEC_DATA_BUS_BITS / 8)) 1).2.storeLong
        (heap.calloc (cfg.BL * (cfg.JEDEC_DATA_BUS_BITS / 8)) 1).1 0 0xdeadbeef) <;> simp
    | some i =>
      simp only []
      cases chain[i]? <;> simp

/-- C6. The column check is missing from `read`: no call of `read` ends in `exit`, whatever
the column; on the fresh bank with `NUM_COLS = 4` the read of column 4 indexes `rowEntries`
outside the vector (undefined behaviour), where the write of column 4 reports the column
error and exits. -/
theorem C6_read_has_no_column_check :
    (∀ cfg heap b q code r, Bank.read cfg heap b q ≠ .exited code r) ∧
    Bank.read exampleConfig exampleHeap (Bank.new exampleConfig)
      (BusPacket.new .READ 4096 4 0 0 0 NULL) = .undefined ∧
    Bank.write exampleConfig exampleHeap (Bank.new exampleConfig)
      (BusPacket.new .WRITE 4096 4 0 0 0 1)
      = .exited (-1) (Bank.new exampleConfig, [columnError 4]) :=
  ⟨read_never_exits, by decide, by decide⟩

/-- C7. Read always yields a data response: on a bank with `NUM_COLS` chains, for every packet
with `column < NUM_COLS`, whatever its kind and whether or not its row is found, `read`
returns and the packet it leaves has kind `DATA`. The buffer size must hold a `long`. -/
theorem C7_read_yields_data (cfg : Config) (heap : Heap) (b : Bank) (q : BusPacket)
    (hlen : b.rowEntries.length = cfg.NUM_COLS) (hq : q.column < cfg.NUM_COLS)
    (hsz : LONG_BYTES ≤ cfg.BL * (cfg.JEDEC_DATA_BUS_BITS / 8)) :
    ∃ b1 heap1 q1, Bank.read cfg heap b q = .returned (b1, heap1, q1) ∧
      q1.busPacketType = .DATA := by
  obtain ⟨heap1, d, h⟩ := read_returns cfg heap b q hlen hq hsz
  exact ⟨b, heap1, _, h, rfl⟩

/-- Witness for C7: a `READ_P` packet whose row is found and a `WRITE` packet whose row is
not found both come back as `DATA`. -/
theorem C7_read_yields_data_witness :
    (∃ b1 heap1 q1, Bank.read exampleConfig exampleHeap { rowEntries := [[], [⟨5, 1⟩], [], []] }
        (BusPacket.new .READ_P 4096 1 5 0 0 NULL) = .returned (b1, heap1, q1) ∧
      q1.busPacketType = .DATA) ∧
    (∃ b1 heap1 q1, Bank.read exampleConfig exampleHeap { rowEntries := [[], [⟨5, 1⟩], [], []] }
        (BusPacket.new .WRITE 4096 1 6 0 0 2) = .returned (b1, heap1, q1) ∧
      q1.busPacketType = .DATA) :=
  ⟨C7_read_yields_data exampleConfig exampleHeap { rowEntries := [[], [⟨5, 1⟩], [], []] }
      (BusPacket.new .READ_P 4096 1 5 0 0 NULL) (by decide) (by decide) (by decide),
   C7_read_yields_data exampleConfig exampleHeap { rowEntries := [[], [⟨5, 1⟩], [], []] }
      (BusPacket.new .WRITE 4096 1 6 0 0 2) (by decide) (by decide) (by decide)⟩

/-- C8. Read changes only kind and payload of the packet: for a packet built by the
constructor from `(packtype, physicalAddr, col, rw, r, bk, dat)` with `col < NUM_COLS`, on a
bank with `NUM_COLS` chains, `read` returns a packet whose rank, bank, row, column and
physical address are `r`, `bk`, `rw`, `col` and `physicalAddr`: it is the packet given, with
`busPacketType` and `data` replaced. The buffer size must hold a `long`. -/
theorem C8_read_frame (cfg : Config) (heap : Heap) (b : Bank) (packtype : BusPacketType)
    (physicalAddr col rw r bk : Nat) (dat : Ptr)
    (hlen : b.rowEntries.length = cfg.NUM_COLS) (hcol : col < cfg.NUM_COLS)
    (hsz : LONG_BYTES ≤ cfg.BL * (cfg.JEDEC_DATA_BUS_BITS / 8)) :
    ∃ b1 heap1 q1,
      Bank.read cfg heap b (BusPacket.new packtype physicalAddr col rw r bk dat)
        = .returned (b1, heap1, q1) ∧
      q1.rank = r ∧ q1.bank = bk ∧ q1.row = rw ∧ q1.column = col ∧
      q1.physicalAddress = physicalAddr ∧
      q1 = { BusPacket.new packtype physicalAddr col rw r bk dat with
        busPacketType := q1.busPacketType, data := q1.data } := by
  obtain ⟨heap1, d, h⟩ := read_returns cfg heap b
    (BusPacket.new packtype physicalAddr col rw r bk dat) hlen hcol hsz
  exact ⟨b, heap1, _, h, rfl, rfl, rfl, rfl, rfl, rfl⟩

/-- Witness for C8: the read of a found row changes the kind and the data of the packet and
nothing else. -/
theorem C8_read_frame_witness :
    ∃ b1 heap1 q1,
      Bank.read exampleConfig exampleHeap { rowEntries := [[], [⟨5, 1⟩], [], []] }
        (BusPacket.new .READ 4096 1 5 3 2 NULL) = .returned (b1, heap1, q1) ∧
      q1.rank = 3 ∧ q1.bank = 2 ∧ q1.row = 5 ∧ q1.column = 1 ∧ q1.physicalAddress = 4096 ∧
      q1 = { BusPacket.new .READ 4096 1 5 3 2 NULL with
        busPacketType := q1.busPacketType, data := q1.data } :=
  C8_read_frame exampleConfig exampleHeap { rowEntries := [[], [⟨5, 1⟩], [], []] }
    .READ 4096 1 5 3 2 NULL (by decide) (by decide) (by decide)

/-! ## Bus packets: verification lines -/

/-- C9. Verification line of a read: with verification output active, `print(n, _)` of a
packet of kind `READ` with rank `a`, bank `b`, column `c` emits exactly the one line
`n: read (a,b,c,0);` (decimal numbers, then a newline) and of kind `READ_P` exactly
`n: read (a,b,c,1);`; cycle 100, rank 1, bank 2, column 3 gives `100: read (1,2,3,0);`. Two
packets of one kind with the same rank, bank and column emit the same line, whatever their
row, physical address and payload. -/
theorem C9_read_verification_line (cfg : Config) (hv : cfg.VERIFICATION_OUTPUT = true)
    (n : Nat) (dataStart : Bool) :
    (∀ p : BusPacket, p.busPacketType = .READ →
      p.print cfg n dataStart = .returned (p, [.cmd_verify_out
        (toString n ++ ": read (" ++ toString p.rank ++ "," ++ toString p.bank ++ ","
          ++ toString p.column ++ ",0);" ++ "\n")])) ∧
    (∀ p : BusPacket, p.busPacketType = .READ_P →
      p.print cfg n dataStart = .returned (p, [.cmd_verify_out
        (toString n ++ ": read (" ++ toString p.rank ++ "," ++ toString p.bank ++ ","
          ++ toString p.column ++ ",1);" ++ "\n")])) ∧
    (∀ physicalAddr rw dat,
      (BusPacket.new .READ physicalAddr 3 rw 1 2 dat).print cfg 100 dataStart
        = .returned (BusPacket.new .READ physicalAddr 3 rw 1 2 dat,
            [.cmd_verify_out "100: read (1,2,3,0);\n"]) ∧
      (BusPacket.new .READ_P physicalAddr 3 rw 1 2 dat).print cfg 100 dataStart
        = .returned (BusPacket.new .READ_P physicalAddr 3 rw 1 2 dat,
            [.cmd_verify_out "100: read (1,2,3,1);\n"])) ∧
    (∀ p p1 : BusPacket, (p.busPacketType = .READ ∨ p.busPacketType = .READ_P) →
      p1.busPacketType = p.busPacketType → p1.rank = p.rank → p1.bank = p.bank →
      p1.column = p.column →
      (p1.print cfg n dataStart).map Prod.snd = (p.print cfg n dataStart).map Prod.snd) := by
  refine ⟨?_, ?_, ?_, ?_⟩
  · intro p hp
    simp [BusPacket.print, hv, hp, dec, endl]
  · intro p hp
    simp [BusPacket.print, hv, hp, dec, endl]
  · intro physicalAddr rw dat
    simp only [BusPacket.print, hv, BusPacket.new, dec, endl, if_true]
    exact ⟨by simp; decide, by simp; decide⟩
  · intro p p1 hk hk1 h1 h2 h3
    rcases hk with hp | hp
    · simp [BusPacket.print, hv, hp, hk1, h1, h2, h3, Outcome.map]
    · simp [BusPacket.print, hv, hp, hk1, h1, h2, h3, Outcome.map]

/-- Witness for C9: the line of the packet of the specification's example. -/
theorem C9_read_verification_line_witness :
    (BusPacket.new .READ 4096 3 7 1 2 NULL).print exampleConfig 100 false
      = .returned (BusPacket.new .READ 4096 3 7 1 2 NULL,
          [.cmd_verify_out "100: read (1,2,3,0);\n"]) :=
  ((C9_read_verification_line exampleConfig rfl 100 false).2.2.1 4096 7 NULL).1

/-- C10, as stated, fails: at cycle 100 the `WRITE` packet with rank 1, bank 2, column 3 does
not emit `100: write (1,2,3,0);`; the line carries two more fields. -/
theorem C10_write_line_counterexample :
    (BusPacket.new .WRITE 4096 3 7 1 2 1).print exampleConfig 100 false
      ≠ .returned (BusPacket.new .WRITE 4096 3 7 1 2 1,
          [.cmd_verify_out "100: write (1,2,3,0);\n"]) ∧
    (BusPacket.new .WRITE 4096 3 7 1 2 1).print exampleConfig 100 false
      = .returned (BusPacket.new .WRITE 4096 3 7 1 2 1,
          [.cmd_verify_out "100: write (1,2,3,0 , 0, \x27h0);\n"]) := by
  decide

/-- C10, amended. Verification line of a write: with verification output active,
`print(n, _)` of a packet with rank `a`, bank `b`, column `c` emits exactly the one line
`n: write (a,b,c,0 , 0, 'h0);` for kind `WRITE` and `n: write (a,b,c,1, 0, 'h0);` for kind
`WRITE_P` (decimal numbers, then a newline): after the flag that tells the two kinds apart
come two constant fields. -/
theorem C10_write_verification_line (cfg : Config) (hv : cfg.VERIFICATION_OUTPUT = true)
    (n : Nat) (dataStart : Bool) :
    (∀ p : BusPacket, p.busPacketType = .WRITE →
      p.print cfg n dataStart = .returned (p, [.cmd_verify_out
        (toString n ++ ": write (" ++ toString p.rank ++ "," ++ toString p.bank ++ ","
          ++ toString p.column ++ ",0 , 0, \x27h0);" ++ "\n")])) ∧
    (∀ p : BusPacket, p.busPacketType = .WRITE_P →
      p.print cfg n dataStart = .returned (p, [.cmd_verify_out
        (toString n ++ ": write (" ++ toString p.rank ++ "," ++ toString p.bank ++ ","
          ++ toString p.column ++ ",1, 0, \x27h0);" ++ "\n")])) := by
  refine ⟨?_, ?_⟩
  · intro p hp
    simp [BusPacket.print, hv, hp, dec, endl]
  · intro p hp
    simp [BusPacket.print, hv, hp, dec, endl]

/-- Witness for the amended C10: the lines of a `WRITE` and of a `WRITE_P` packet at cycle
100, rank 1, bank 2, column 3. -/
theorem C10_write_verification_line_witness :
    (BusPacket.new .WRITE 4096 3 7 1 2 1).print exampleConfig 100 true
      = .returned (BusPacket.new .WRITE 4096 3 7 1 2 1,
          [.cmd_verify_out "100: write (1,2,3,0 , 0, \x27h0);\n"]) ∧
    (BusPacket.new .WRITE_P 4096 3 7 1 2 1).print exampleConfig 100 true
      = .returned (BusPacket.new .WRITE_P 4096 3 7 1 2 1,
          [.cmd_verify_out "100: write (1,2,3,1, 0, \x27h0);\n"]) :=
  ⟨(C10_write_verification_line exampleConfig rfl 100 true).1 _ rfl,
   (C10_write_verification_line exampleConfig rfl 100 true).2 _ rfl⟩


/-! ## Bus packets: the remaining verification lines and the summaries -/

theorem digitChar_ne_newline (k : Nat) : Nat.digitChar k ≠ '\n' := by
  by_cases h : k < 16
  · interval_cases k <;> decide
  · have hstar : Nat.digitChar k = '*' := by
      unfold Nat.digitChar
      iterate 16 rw [if_neg (by omega)]
    rw [hstar]
    decide

theorem toDigitsCore_no_newline (base fuel n : Nat) (ds : List Char)
    (hds : '\n' ∉ ds) : '\n' ∉ Nat.toDigitsCore base fuel n ds := by
  induction fuel generalizing n ds with
  | zero => simpa [Nat.toDigitsCore] using hds
  | succ f ih =>
    have hcons : '\n' ∉ Nat.digitChar (n % base) :: ds := by
      intro hm
      rcases List.mem_cons.mp hm with h | h
      · exact digitChar_ne_newline (n % base) h.symm
      · exact hds h
    simp only [Nat.toDigitsCore]
    split
    · exact hcons
    · exact ih (n / base) _ hcons

theorem dec_no_newline (n : Nat) : '\n' ∉ (toString n).data := by
  show '\n' ∉ (Nat.repr n).data
  simp only [Nat.repr, Nat.toDigits, List.asString]
  exact toDigitsCore_no_newline 10 (n + 1) n [] (by simp)

/-- C11. Verification lines of the state-transition commands: with verification output active,
`print(n, _)` of a packet with rank `a`, bank `b` and row `r` emits exactly the one line
`n: activate (a,b,r);` for kind `ACTIVATE`, `n: precharge (a,b,r);` for kind `PRECHARGE` and
`n: refresh (a);` for kind `REFRESH` (decimal numbers, then a newline). Two packets of one of
these kinds with the same rank, bank and row emit the same line, whatever their column,
physical address and payload. -/
theorem C11_state_transition_lines (cfg : Config) (hv : cfg.VERIFICATION_OUTPUT = true)
    (n : Nat) (dataStart : Bool) :
    (∀ p : BusPacket, p.busPacketType = .ACTIVATE →
      p.print cfg n dataStart = .returned (p, [.cmd_verify_out
        (toString n ++ ": activate (" ++ toString p.rank ++ "," ++ toString p.bank ++ ","
          ++ toString p.row ++ ");" ++ "\n")])) ∧
    (∀ p : BusPacket, p.busPacketType = .PRECHARGE →
      p.print cfg n dataStart = .returned (p, [.cmd_verify_out
        (toString n ++ ": precharge (" ++ toString p.rank ++ "," ++ toString p.bank ++ ","
          ++ toString p.row ++ ");" ++ "\n")])) ∧
    (∀ p : BusPacket, p.busPacketType = .REFRESH →
      p.print cfg n dataStart = .returned (p, [.cmd_verify_out
        (toString n ++ ": refresh (" ++ toString p.rank ++ ");" ++ "\n")])) ∧
    (∀ p p1 : BusPacket,
      (p.busPacketType = .ACTIVATE ∨ p.busPacketType = .PRECHARGE ∨
        p.busPacketType = .REFRESH) →
      p1.busPacketType = p.busPacketType → p1.rank = p.rank → p1.bank = p.bank →
      p1.row = p.row →
      (p1.print cfg n dataStart).map Prod.snd = (p.print cfg n dataStart).map Prod.snd) := by
  refine ⟨?_, ?_, ?_, ?_⟩
  · intro p hp
    simp [BusPacket.print, hv, hp, dec, endl]
  · intro p hp
    simp [BusPacket.print, hv, hp, dec, endl]
  · intro p hp
    simp [BusPacket.print, hv, hp, dec, endl]
  · intro p p1 hk hk1 h1 h2 h3
    rcases hk with hp | hp | hp
    · simp [BusPacket.print, hv, hp, hk1, h1, h2, h3, Outcome.map]
    · simp [BusPacket.print, hv, hp, hk1, h1, h2, h3, Outcome.map]
    · simp [BusPacket.print, hv, hp, hk1, h1, h2, h3, Outcome.map]

/-- Witness for C11: the three lines at cycle 100 for rank 1, bank 2, row 7. -/
theorem C11_state_transition_lines_witness :
    (BusPacket.new .ACTIVATE 4096 3 7 1 2 NULL).print exampleConfig 100 false
      = .returned (BusPacket.new .ACTIVATE 4096 3 7 1 2 NULL,
          [.cmd_verify_out "100: activate (1,2,7);\n"]) ∧
    (BusPacket.new .PRECHARGE 4096 3 7 1 2 NULL).print exampleConfig 100 false
      = .returned (BusPacket.new .PRECHARGE 4096 3 7 1 2 NULL,
          [.cmd_verify_out "100: precharge (1,2,7);\n"]) ∧
    (BusPacket.new .REFRESH 4096 3 7 1 2 NULL).print exampleConfig 100 false
      = .returned (BusPacket.new .REFRESH 4096 3 7 1 2 NULL,
          [.cmd_verify_out "100: refresh (1);\n"]) :=
  ⟨((C11_state_transition_lines exampleConfig rfl 100 false).1 _ rfl).trans (by decide),
   ((C11_state_transition_lines exampleConfig rfl 100 false).2.1 _ rfl).trans (by decide),
   ((C11_state_transition_lines exampleConfig rfl 100 false).2.2.1 _ rfl).trans (by decide)⟩

/-- C12. When a verification line is produced: for a packet of one of the eight recognised
kinds, `print(cycle, _)` returns and leaves the packet as it was; with verification output
active and a kind other than `DATA` it emits exactly one line (one insertion into
`cmd_verify_out`, a text without newline followed by the newline); with verification output
inactive, or for kind `DATA`, it emits nothing. -/
theorem C12_when_a_line_is_produced (cfg : Config) (p : BusPacket) (cycle : Nat)
    (dataStart : Bool) (hk : ∀ v, p.busPacketType ≠ .unrecognised v) :
    ∃ out, p.print cfg cycle dataStart = .returned (p, out) ∧
      (cfg.VERIFICATION_OUTPUT = true → p.busPacketType ≠ .DATA →
        ∃ body, out = [.cmd_verify_out (body ++ "\n")] ∧ '\n' ∉ body.data) ∧
      (cfg.VERIFICATION_OUTPUT = false ∨ p.busPacketType = .DATA → out = []) := by
  have hn := dec_no_newline
  by_cases hv : cfg.VERIFICATION_OUTPUT = true
  · cases hp : p.busPacketType with
    | unrecognised v => exact absurd hp (hk v)
    | DATA => exact ⟨[], by simp [BusPacket.print, hv, hp], by simp, by simp⟩
    | READ =>
      simp only [BusPacket.print, hv, hp, if_true]
      refine ⟨_, rfl, fun _ _ => ⟨_, rfl, ?_⟩, by simp⟩
      simp [dec, hn]
    | READ_P =>
      simp only [BusPacket.print, hv, hp, if_true]
      refine ⟨_, rfl, fun _ _ => ⟨_, rfl, ?_⟩, by simp⟩
      simp [dec, hn]
    | WRITE =>
      simp only [BusPacket.print, hv, hp, if_true]
      refine ⟨_, rfl, fun _ _ => ⟨_, rfl, ?_⟩, by simp⟩
      simp [dec, hn]
    | WRITE_P =>
      simp only [BusPacket.print, hv, hp, if_true]
      refine ⟨_, rfl, fun _ _ => ⟨_, rfl, ?_⟩, by simp⟩
      simp [dec, hn]
    | ACTIVATE =>
      simp only [BusPacket.print, hv, hp, if_true]
      refine ⟨_, rfl, fun _ _ => ⟨_, rfl, ?_⟩, by simp⟩
      simp [dec, hn]
    | PRECHARGE =>
      simp only [BusPacket.print, hv, hp, if_true]
      refine ⟨_, rfl, fun _ _ => ⟨_, rfl, ?_⟩, by simp⟩
      simp [dec, hn]
    | REFRESH =>
      simp only [BusPacket.print, hv, hp, if_true]
      refine ⟨_, rfl, fun _ _ => ⟨_, rfl, ?_⟩, by simp⟩
      simp [dec, hn]
  · exact ⟨[], by simp [BusPacket.print, hv], fun h => absurd h hv, fun _ => rfl⟩


/-- Witness for C12: a `WRITE` packet at cycle 7 with verification output active. -/
theorem C12_when_a_line_is_produced_witness :
    ∃ out, (BusPacket.new .WRITE 4096 3 7 1 2 1).print exampleConfig 7 true
        = .returned (BusPacket.new .WRITE 4096 3 7 1 2 1, out) ∧
      (exampleConfig.VERIFICATION_OUTPUT = true →
        (BusPacket.new .WRITE 4096 3 7 1 2 1).busPacketType ≠ .DATA →
        ∃ body, out = [.cmd_verify_out (body ++ "\n")] ∧ '\n' ∉ body.data) ∧
      (exampleConfig.VERIFICATION_OUTPUT = false ∨
        (BusPacket.new .WRITE 4096 3 7 1 2 1).busPacketType = .DATA → out = []) :=
  C12_when_a_line_is_produced exampleConfig (BusPacket.new .WRITE 4096 3 7 1 2 1) 7 true
    (fun _ h => by cases h)

/-- C13. The summary of `print()` does not report the packet's fields: for the seven kinds
with a tag the text printed is `fmt` with the tag in place of `%s`, the rest of `fmt` being
the stream expression spelled out as text, so two packets of one kind get the same summary
whatever their fields; the `READ` packets with address 0x1000, rank 1, bank 2, row 7, column 3
and with address 0x2000, rank 5, bank 6, row 8, column 4 both print that text. -/
theorem C13_summary_ignores_fields :
    (∀ (ptrText : Ptr → String) (heap : Heap) (p p1 : BusPacket),
      (∀ v, p.busPacketType ≠ .unrecognised v) → p.busPacketType ≠ .DATA →
      p1.busPacketType = p.busPacketType →
      (p1.printNoArgs ptrText heap).map Prod.snd
        = (p.printNoArgs ptrText heap).map Prod.snd) ∧
    (BusPacket.new .READ 0x1000 3 7 1 2 NULL).printNoArgs hex exampleHeap
      = .returned (BusPacket.new .READ 0x1000 3 7 1 2 NULL,
          [.PRINT "\"BP [READ] pa[0x\"<<hex<<physicalAddress<<dec<<\"] r[\"<<rank<<\"] b[\"<<bank<<\"] row[\"<<row<<\"] col[\"<<column<<\"]\"",
           .cout "\"BP [READ] pa[0x\"<<hex<<physicalAddress<<dec<<\"] r[\"<<rank<<\"] b[\"<<bank<<\"] row[\"<<row<<\"] col[\"<<column<<\"]\""]) ∧
    ((BusPacket.new .READ 0x2000 4 8 5 6 NULL).printNoArgs hex exampleHeap).map Prod.snd
      = ((BusPacket.new .READ 0x1000 3 7 1 2 NULL).printNoArgs hex exampleHeap).map
          Prod.snd ∧
    (BusPacket.new .READ 0x1000 3 7 1 2 NULL).printNoArgs hex exampleHeap
      ≠ .returned (BusPacket.new .READ 0x1000 3 7 1 2 NULL,
          [.PRINT "BP [READ] pa[0x1000] r[1] b[2] row[7] col[3]",
           .cout "BP [READ] pa[0x1000] r[1] b[2] row[7] col[3]"]) := by
  refine ⟨?_, by decide, by decide, by decide⟩
  intro ptrText heap p p1 hk hd h1
  cases hp : p.busPacketType with
  | unrecognised v => exact absurd hp (hk v)
  | DATA => exact absurd hp hd
  | _ => simp [BusPacket.printNoArgs, h1, hp, Outcome.map]

/-- C14. The payload dump guards the absent payload: with `data` null, `printData` emits
exactly `NO DATA`, whatever the heap holds (it reads none of it); with `data` not null and the
four `uint64_t` at indices 0..3 of the payload being `w0..w3`, it emits a quote, the four
words in hexadecimal in index order and a quote, whatever else the heap holds (it reads no
other word). -/
theorem C14_printData_guards_null (p : BusPacket) :
    (p.data = NULL → ∀ heap, p.printData heap = .returned [.PRINTN "NO DATA"]) ∧
    (p.data ≠ NULL → ∀ heap w0 w1 w2 w3,
      heap.loadUInt64 p.data 0 = some w0 → heap.loadUInt64 p.data 1 = some w1 →
      heap.loadUInt64 p.data 2 = some w2 → heap.loadUInt64 p.data 3 = some w3 →
      p.printData heap = .returned [.PRINTN "\x27", .PRINTN (hex w0), .PRINTN (hex w1),
        .PRINTN (hex w2), .PRINTN (hex w3), .PRINTN "\x27"]) := by
  constructor
  · intro h heap
    simp [BusPacket.printData, h]
  · intro h heap w0 w1 w2 w3 h0 h1 h2 h3
    simp [BusPacket.printData, h, BusPacket.printDataLoop, h0, h1, h2, h3]

/-- Witness for C14: the null payload with an empty heap, and the payload of handle 2 (64
bytes `0x22`) of which only the first 32 bytes are kept in the second heap. -/
theorem C14_printData_guards_null_witness :
    (BusPacket.new .WRITE 4096 3 7 1 2 NULL).printData { blocks := [] }
      = .returned [.PRINTN "NO DATA"] ∧
    (BusPacket.new .WRITE 4096 3 7 1 2 2).printData exampleHeap
      = .returned [.PRINTN "\x27", .PRINTN "2222222222222222", .PRINTN "2222222222222222",
          .PRINTN "2222222222222222", .PRINTN "2222222222222222", .PRINTN "\x27"] ∧
    (BusPacket.new .WRITE 4096 3 7 1 2 2).printData
        { blocks := [[], List.replicate 32 34] }
      = (BusPacket.new .WRITE 4096 3 7 1 2 2).printData exampleHeap :=
  ⟨(C14_printData_guards_null (BusPacket.new .WRITE 4096 3 7 1 2 NULL)).1 rfl _,
   ((C14_printData_guards_null (BusPacket.new .WRITE 4096 3 7 1 2 2)).2 (by decide)
      exampleHeap 0x2222222222222222 0x2222222222222222 0x2222222222222222
      0x2222222222222222 (by decide) (by decide) (by decide) (by decide)).trans (by decide),
   by decide⟩

/-- C15, as stated, fails: with verification output inactive, `print(100, _)` of a packet
whose kind is none of the eight returns, with no error and no output. -/
theorem C15_unrecognised_kind_counterexample :
    (BusPacket.new (.unrecognised 8) 4096 3 7 1 2 NULL).print
        { exampleConfig with VERIFICATION_OUTPUT := false } 100 false
      = .returned (BusPacket.new (.unrecognised 8) 4096 3 7 1 2 NULL, []) ∧
    ∀ code r, (BusPacket.new (.unrecognised 8) 4096 3 7 1 2 NULL).print
        { exampleConfig with VERIFICATION_OUTPUT := false } 100 false ≠ .exited code r := by
  refine ⟨by decide, ?_⟩
  intro code r
  simp [BusPacket.print, exampleConfig]

/-- C15, amended. Unrecognised kinds are fatal where the kind is looked at: for a packet whose
kind is none of the eight, `print()` ends in `exit(-1)` after the unknown-packet error and
emits no summary; `print(cycle, _)` does so, emitting no command line, when verification
output is active, and returns without error and without output when it is inactive. -/
theorem C15_unrecognised_kinds (cfg : Config) (ptrText : Ptr → String) (heap : Heap)
    (p : BusPacket) (cycle : Nat) (dataStart : Bool) (v : Nat)
    (hk : p.busPacketType = .unrecognised v) :
    p.printNoArgs ptrText heap
      = .exited (-1) (p, [.ERROR "Trying to print unknown kind of bus packet"]) ∧
    (cfg.VERIFICATION_OUTPUT = true → p.print cfg cycle dataStart
      = .exited (-1) (p, [.ERROR "Trying to print unknown kind of bus packet"])) ∧
    (cfg.VERIFICATION_OUTPUT = false → p.print cfg cycle dataStart = .returned (p, [])) := by
  refine ⟨by simp [BusPacket.printNoArgs, hk], ?_, ?_⟩
  · intro hv
    simp [BusPacket.print, hv, hk]
  · intro hv
    simp [BusPacket.print, hv]

/-- Witness for the amended C15: the packet of kind value 8 with verification output
active. -/
theorem C15_unrecognised_kinds_witness :
    (BusPacket.new (.unrecognised 8) 4096 3 7 1 2 NULL).printNoArgs hex exampleHeap
      = .exited (-1) (BusPacket.new (.unrecognised 8) 4096 3 7 1 2 NULL,
          [.ERROR "Trying to print unknown kind of bus packet"]) ∧
    (BusPacket.new (.unrecognised 8) 4096 3 7 1 2 NULL).print exampleConfig 100 false
      = .exited (-1) (BusPacket.new (.unrecognised 8) 4096 3 7 1 2 NULL,
          [.ERROR "Trying to print unknown kind of bus packet"]) :=
  ⟨(C15_unrecognised_kinds exampleConfig hex exampleHeap
      (BusPacket.new (.unrecognised 8) 4096 3 7 1 2 NULL) 100 false 8 rfl).1,
   (C15_unrecognised_kinds exampleConfig hex exampleHeap
      (BusPacket.new (.unrecognised 8) 4096 3 7 1 2 NULL) 100 false 8 rfl).2.1 rfl⟩


/-! ## Bank storage: the trace, the invariant and the frame of `write` and `read` -/

/-- An in-range write whose search finds no node returns the bank with the new node at the
head of the chain, and emits nothing. -/
theorem write_insert (cfg : Config) (heap : Heap) (b : Bank) (p : BusPacket)
    (chain : List DataStruct) (hc : p.column < cfg.NUM_COLS)
    (hch : b.rowEntries[p.column]? = some chain)
    (hs : Bank.searchForRow p.row chain = none) :
    Bank.write cfg heap b p = .returned (Bank.mk (b.rowEntries.set p.column
      ({ row := p.row, data := p.data } :: chain)), []) := by
  have hc1 : ¬ cfg.NUM_COLS ≤ p.column := Nat.not_le_of_lt hc
  simp [Bank.write, hc1, hch, hs]

/-- An in-range write whose search finds the node at position `i` returns the bank with that
node's data replaced, provided the debug trace can print the payload. -/
theorem write_found (cfg : Config) (heap : Heap) (b : Bank) (p : BusPacket)
    (chain : List DataStruct) (i : Nat) (hc : p.column < cfg.NUM_COLS)
    (hch : b.rowEntries[p.column]? = some chain)
    (hs : Bank.searchForRow p.row chain = some i)
    (hd : cfg.DEBUG_BANKS = false ∨ heap.printable p.data = true) :
    ∃ out, Bank.write cfg heap b p = .returned (Bank.mk (b.rowEntries.set p.column
      (chain.modify (fun node => { node with data := p.data }) i)), out) := by
  have hc1 : ¬ cfg.NUM_COLS ≤ p.column := Nat.not_le_of_lt hc
  unfold Bank.write
  simp only [hc1, if_false, hch, hs]
  by_cases hdb : cfg.DEBUG_BANKS = true
  · rcases hd with hd | hd
    · rw [hd] at hdb
      cases hdb
    · obtain ⟨words, hw⟩ := printData_returns heap p hd
      simp only [hdb, if_true, hw]
      exact ⟨_, rfl⟩
  · simp only [hdb]
    exact ⟨_, rfl⟩

/-- The bank a write leaves when it ends in `exit` is the bank it was given. -/
theorem write_exited (cfg : Config) (heap : Heap) (b b1 : Bank) (p : BusPacket) (code : Int)
    (out : List Output) (h : Bank.write cfg heap b p = .exited code (b1, out)) : b1 = b := by
  unfold Bank.write at h
  by_cases hc : cfg.NUM_COLS ≤ p.column
  · simp only [hc, if_true, Outcome.exited.injEq, Prod.mk.injEq] at h
    exact h.2.1.symm
  · simp only [hc, if_false] at h
    cases hch : b.rowEntries[p.column]? with
    | none => simp [hch] at h
    | some chain =>
      simp only [hch] at h
      cases hs : Bank.searchForRow p.row chain with
      | none => simp [hs] at h
      | some i =>
        simp only [hs] at h
        by_cases hd : cfg.DEBUG_BANKS = true
        · simp only [hd, if_true] at h
          unfold BusPacket.printData at h
          by_cases h0 : p.data = NULL
          · simp [h0] at h
          · simp only [h0, if_false, BusPacket.printDataLoop] at h
            revert h
            cases heap.loadUInt64 p.data 0 <;> cases heap.loadUInt64 p.data (0 + 1) <;>
              cases heap.loadUInt64 p.data (0 + 1 + 1) <;>
              cases heap.loadUInt64 p.data (0 + 1 + 1 + 1) <;> simp
        · simp [hd] at h

/-- The bank a read returns is the bank it was given. -/
theorem read_bank (cfg : Config) (heap heap1 : Heap) (b b1 : Bank) (q q1 : BusPacket)
    (h : Bank.read cfg heap b q = .returned (b1, heap1, q1)) : b1 = b := by
  unfold Bank.read at h
  cases hch : b.rowEntries[q.column]? with
  | none => simp [hch] at h
  | some chain =>
    simp only [hch] at h
    cases hs : Bank.searchForRow q.row chain with
    | none =>
      simp only [hs] at h
      revert h
      cases ((heap.calloc (cfg.BL * (cfg.JEDEC_DATA_BUS_BITS / 8)) 1).2.storeLong
        (heap.calloc (cfg.BL * (cfg.JEDEC_DATA_BUS_BITS / 8)) 1).1 0 0xdeadbeef) with
      | none => simp
      | some heap2 =>
        simp only [Outcome.returned.injEq, Prod.mk.injEq]
        intro h
        exact h.1.symm
    | some i =>
      simp only [hs] at h
      revert h
      cases chain[i]? with
      | none => simp
      | some node =>
        simp only [Outcome.returned.injEq, Prod.mk.injEq]
        intro h
        exact h.1.symm

/-- C16. The debug trace is missing from an inserting write: with `DEBUG_BANKS` on, the write
of `(1, 5)` into the fresh bank inserts the node and emits nothing, where the following write
to `(1, 5)`, which overwrites it, emits the trace (bank, hexadecimal physical address,
payload); in general a write that finds no node for the row emits nothing whatever the mode,
and with the mode off no returning write emits anything. -/
theorem C16_inserting_write_emits_no_trace :
    exampleConfig.DEBUG_BANKS = true ∧
    Bank.write exampleConfig exampleHeap (Bank.new exampleConfig)
        (BusPacket.new .WRITE 4096 1 5 0 0 1)
      = .returned ({ rowEntries := [[], [⟨5, 1⟩], [], []] }, []) ∧
    Bank.write exampleConfig exampleHeap { rowEntries := [[], [⟨5, 1⟩], [], []] }
        (BusPacket.new .WRITE 4096 1 5 0 0 2)
      = .returned ({ rowEntries := [[], [⟨5, 2⟩], [], []] },
          [.PRINTN " -- Bank 0 writing to physical address 0x1000:", .PRINTN "\x27",
            .PRINTN "2222222222222222", .PRINTN "2222222222222222",
            .PRINTN "2222222222222222", .PRINTN "2222222222222222", .PRINTN "\x27",
            .PRINT ""]) ∧
    (∀ cfg heap b p chain, p.column < cfg.NUM_COLS → b.rowEntries[p.column]? = some chain →
      (∀ node ∈ chain, node.row ≠ p.row) →
      ∃ b1, Bank.write cfg heap b p = .returned (b1, [])) ∧
    (∀ cfg heap b p b1 out, cfg.DEBUG_BANKS = false →
      Bank.write cfg heap b p = .returned (b1, out) → out = []) := by
  refine ⟨rfl, by decide, by decide, ?_, ?_⟩
  · intro cfg heap b p chain hc hch hno
    exact ⟨_, write_insert cfg heap b p chain hc hch
      ((searchForRow_none_iff p.row chain).mpr hno)⟩
  · intro cfg heap b p b1 out hd h
    unfold Bank.write at h
    by_cases hc : cfg.NUM_COLS ≤ p.column
    · simp [hc] at h
    · simp only [hc, if_false] at h
      cases hch : b.rowEntries[p.column]? with
      | none => simp [hch] at h
      | some chain =>
        simp only [hch] at h
        cases hs : Bank.searchForRow p.row chain with
        | none =>
          simp only [hs, Outcome.returned.injEq, Prod.mk.injEq] at h
          exact h.2.symm
        | some i =>
          simp only [hs, hd, Bool.false_eq_true, if_false, Outcome.returned.injEq,
            Prod.mk.injEq] at h
          exact h.2.symm


theorem searchForRow_first (r : Nat) (l : List DataStruct) (i : Nat)
    (h : Bank.searchForRow r l = some i) :
    ∀ j n, j < i → l[j]? = some n → n.row ≠ r := by
  induction l generalizing i with
  | nil => simp [Bank.searchForRow] at h
  | cons a t ih =>
    by_cases ha : a.row = r
    · simp [Bank.searchForRow, ha] at h
      subst h
      intro j n hj
      omega
    · simp only [Bank.searchForRow, ha, if_false] at h
      cases hs : Bank.searchForRow r t with
      | none => simp [hs] at h
      | some k =>
        simp [hs] at h
        subst h
        intro j n hj hn
        cases j with
        | zero =>
          simp at hn
          subst hn
          exact ha
        | succ j1 =>
          simp at hn
          exact ih k hs j1 n (by omega) hn

theorem present_eq_lookup (b : Bank) (c r : Nat) :
    b.present c r = (b.lookup c r).isSome := by
  unfold Bank.present Bank.lookup
  cases b.rowEntries[c]? with
  | none => rfl
  | some chain =>
    simp only []
    cases hs : Bank.searchForRow r chain with
    | none => simp [stored_none_of_search r chain hs]
    | some i =>
      obtain ⟨n, _, _, h3⟩ := searchForRow_some r chain i hs
      simp [h3]

theorem present_write (cfg : Config) (heap : Heap) (b b1 : Bank) (p : BusPacket)
    (out : List Output) (h : Bank.write cfg heap b p = .returned (b1, out)) (c r : Nat)
    (hp : b.present c r = true) : b1.present c r = true := by
  rw [present_eq_lookup] at hp ⊢
  rw [lookup_write cfg heap b b1 p out h c r]
  split
  · rfl
  · exact hp

theorem present_run (cfg : Config) (calls : List BankCall) (b b1 : Bank)
    (h : Bank.run cfg b calls = .returned b1) (c r : Nat) (hp : b.present c r = true) :
    b1.present c r = true := by
  induction calls generalizing b with
  | nil =>
    simp only [Bank.run, Outcome.returned.injEq] at h
    rw [← h]
    exact hp
  | cons x xs ih =>
    cases x with
    | write heap p =>
      simp only [Bank.run] at h
      cases hw : Bank.write cfg heap b p with
      | returned res =>
        obtain ⟨b2, out⟩ := res
        simp only [hw] at h
        exact ih b2 h (present_write cfg heap b b2 p out hw c r hp)
      | exited code res => simp [hw] at h
      | undefined => simp [hw] at h
    | read heap q =>
      simp only [Bank.run] at h
      cases hr : Bank.read cfg heap b q with
      | returned res =>
        obtain ⟨b2, heap1, q1⟩ := res
        simp only [hr] at h
        have hb := read_bank cfg heap heap1 b b2 q q1 hr
        subst hb
        exact ih b2 h hp
      | exited code res => simp [hr] at h
      | undefined => simp [hr] at h

theorem rowsUnique_run (cfg : Config) (calls : List BankCall) (b b1 : Bank)
    (h : Bank.run cfg b calls = .returned b1) (hu : b.rowsUnique) : b1.rowsUnique := by
  induction calls generalizing b with
  | nil =>
    simp only [Bank.run, Outcome.returned.injEq] at h
    rw [← h]
    exact hu
  | cons x xs ih =>
    cases x with
    | write heap p =>
      simp only [Bank.run] at h
      cases hw : Bank.write cfg heap b p with
      | returned res =>
        obtain ⟨b2, out⟩ := res
        simp only [hw] at h
        exact ih b2 h (rowsUnique_write cfg heap b b2 p out hw hu)
      | exited code res => simp [hw] at h
      | undefined => simp [hw] at h
    | read heap q =>
      simp only [Bank.run] at h
      cases hr : Bank.read cfg heap b q with
      | returned res =>
        obtain ⟨b2, heap1, q1⟩ := res
        simp only [hr] at h
        have hb := read_bank cfg heap heap1 b b2 q q1 hr
        subst hb
        exact ih b2 h hu
      | exited code res => simp [hr] at h
      | undefined => simp [hr] at h

/-- C17. Row uniqueness invariant: the freshly constructed bank has `NUM_COLS` chains, all
empty; from a bank in which every chain holds at most one node per row value, the bank left by
a `write` (returning, or ending in `exit`) and the bank left by a `read` again hold at most
one node per row value in every chain; hence so does every bank reached from construction by
a run of writes and reads. -/
theorem C17_row_uniqueness_invariant (cfg : Config) :
    ((Bank.new cfg).rowEntries.length = cfg.NUM_COLS ∧
      (∀ chain ∈ (Bank.new cfg).rowEntries, chain = []) ∧ (Bank.new cfg).rowsUnique) ∧
    (∀ heap b p b1 out, b.rowsUnique →
      Bank.write cfg heap b p = .returned (b1, out) → b1.rowsUnique) ∧
    (∀ heap b p code b1 out, b.rowsUnique →
      Bank.write cfg heap b p = .exited code (b1, out) → b1.rowsUnique) ∧
    (∀ heap b q b1 heap1 q1, b.rowsUnique →
      Bank.read cfg heap b q = .returned (b1, heap1, q1) → b1.rowsUnique) ∧
    (∀ calls b1, Bank.run cfg (Bank.new cfg) calls = .returned b1 → b1.rowsUnique) := by
  have hempty : ∀ chain ∈ (Bank.new cfg).rowEntries, chain = [] := by
    intro chain hm
    exact (List.mem_replicate.mp hm).2
  have hnew : (Bank.new cfg).rowsUnique := by
    intro chain hm
    rw [hempty chain hm]
    exact List.nodup_nil
  refine ⟨⟨by simp [Bank.new], hempty, hnew⟩, ?_, ?_, ?_, ?_⟩
  · intro heap b p b1 out hu h
    exact rowsUnique_write cfg heap b b1 p out h hu
  · intro heap b p code b1 out hu h
    rw [write_exited cfg heap b b1 p code out h]
    exact hu
  · intro heap b q b1 heap1 q1 hu h
    rw [read_bank cfg heap heap1 b b1 q q1 h]
    exact hu
  · intro calls b1 h
    exact rowsUnique_run cfg calls _ b1 h hnew

/-- Witness for C17: the bank reached from construction by two writes to `(1, 5)`, a write to
`(1, 6)` and a read of `(2, 9)` holds each row once per chain. -/
theorem C17_row_uniqueness_invariant_witness :
    Bank.rowsUnique { rowEntries := [[], [⟨6, 1⟩, ⟨5, 2⟩], [], []] } :=
  (C17_row_uniqueness_invariant exampleConfig).2.2.2.2
    [.write exampleHeap (BusPacket.new .WRITE 4096 1 5 0 0 1),
     .write exampleHeap (BusPacket.new .WRITE 4096 1 5 0 0 2),
     .write exampleHeap (BusPacket.new .WRITE_P 4100 1 6 0 0 1),
     .read exampleHeap (BusPacket.new .READ 4200 2 9 0 0 NULL)]
    { rowEntries := [[], [⟨6, 1⟩, ⟨5, 2⟩], [], []] } (by decide)

/-- C18. Insertion at head: for an in-range write `(c, r, P)` on a bank whose chain of column
`c` has no node with row `r`, `write` returns; the chain of column `c` is then the new node
`(r, P)` followed by the previous chain, one node longer, the bank has as many chains as
before and the chain of every other column is the one before. -/
theorem C18_insertion_at_head (cfg : Config) (heap : Heap) (b : Bank) (p : BusPacket)
    (chain : List DataStruct) (hc : p.column < cfg.NUM_COLS)
    (hch : b.rowEntries[p.column]? = some chain)
    (hno : ∀ node ∈ chain, node.row ≠ p.row) :
    ∃ b1 chain1, Bank.write cfg heap b p = .returned (b1, []) ∧
      b1.rowEntries[p.column]? = some chain1 ∧
      chain1 = { row := p.row, data := p.data } :: chain ∧
      chain1.length = chain.length + 1 ∧
      b1.rowEntries.length = b.rowEntries.length ∧
      (∀ c, c ≠ p.column → b1.rowEntries[c]? = b.rowEntries[c]?) := by
  have hlt : p.column < b.rowEntries.length := (List.getElem?_eq_some_iff.mp hch).1
  refine ⟨_, _, write_insert cfg heap b p chain hc hch
    ((searchForRow_none_iff p.row chain).mpr hno), ?_, rfl, by simp, by simp, ?_⟩
  · exact List.getElem?_set_self hlt
  · intro c hne
    exact List.getElem?_set_ne (fun e => hne e.symm)

/-- Witness for C18: the write of `(1, 6, 2)` on the bank holding `(1, 5) -> 1`. -/
theorem C18_insertion_at_head_witness :
    ∃ b1 chain1, Bank.write exampleConfig exampleHeap { rowEntries := [[], [⟨5, 1⟩], [], []] }
        (BusPacket.new .WRITE 4100 1 6 0 0 2) = .returned (b1, []) ∧
      b1.rowEntries[1]? = some chain1 ∧
      chain1 = { row := 6, data := 2 } :: [⟨5, 1⟩] ∧
      chain1.length = [(⟨5, 1⟩ : DataStruct)].length + 1 ∧
      b1.rowEntries.length = 4 ∧
      (∀ c, c ≠ 1 → b1.rowEntries[c]?
        = (Bank.mk [[], [⟨5, 1⟩], [], []]).rowEntries[c]?) :=
  C18_insertion_at_head exampleConfig exampleHeap { rowEntries := [[], [⟨5, 1⟩], [], []] }
    (BusPacket.new .WRITE 4100 1 6 0 0 2) [⟨5, 1⟩] (by decide) (by decide) (by decide)


/-- C19. Overwrite in place, nothing removed: for an in-range write `(c, r, P)` on a bank whose
chain of column `c` has a node with row `r`, `write` returns (given a printable payload when
the debug trace is on); with `i` the position of the first node of that chain with row `r`,
the bank has as many chains as before, every chain has the length and the sequence of row
values it had, every node other than node `i` of column `c` is as before, and node `i` of
column `c` now carries `P`. Over any run of writes and reads, a `(column, row)` key present in
the bank before the run is present after it. -/
theorem C19_overwrite_in_place (cfg : Config) :
    (∀ heap b p chain, p.column < cfg.NUM_COLS → b.rowEntries[p.column]? = some chain →
      (∃ node ∈ chain, node.row = p.row) →
      (cfg.DEBUG_BANKS = false ∨ heap.printable p.data = true) →
      ∃ b1 out i, Bank.write cfg heap b p = .returned (b1, out) ∧
        Bank.searchForRow p.row chain = some i ∧
        (∃ node, chain[i]? = some node ∧ node.row = p.row) ∧
        (∀ j n, j < i → chain[j]? = some n → n.row ≠ p.row) ∧
        b1.rowEntries.length = b.rowEntries.length ∧
        (∀ c ch, b.rowEntries[c]? = some ch → ∃ ch1, b1.rowEntries[c]? = some ch1 ∧
          ch1.length = ch.length ∧ ch1.map DataStruct.row = ch.map DataStruct.row ∧
          (∀ j, ¬ (c = p.column ∧ j = i) → ch1[j]? = ch[j]?)) ∧
        (∃ ch1, b1.rowEntries[p.column]? = some ch1 ∧
          ch1[i]? = some { row := p.row, data := p.data })) ∧
    (∀ calls b b1, Bank.run cfg b calls = .returned b1 →
      ∀ c r, b.present c r = true → b1.present c r = true) := by
  refine ⟨?_, fun calls b b1 h c r hp => present_run cfg calls b b1 h c r hp⟩
  intro heap b p chain hc hch hhas hd
  have hlt : p.column < b.rowEntries.length := (List.getElem?_eq_some_iff.mp hch).1
  cases hs : Bank.searchForRow p.row chain with
  | none =>
    obtain ⟨node, hn, hr⟩ := hhas
    exact absurd hr ((searchForRow_none_iff p.row chain).mp hs node hn)
  | some i =>
    obtain ⟨out, hw⟩ := write_found cfg heap b p chain i hc hch hs hd
    obtain ⟨node, hn1, hn2, _⟩ := searchForRow_some p.row chain i hs
    refine ⟨_, out, i, hw, rfl, ⟨node, hn1, hn2⟩, searchForRow_first p.row chain i hs,
      by simp, ?_, ?_⟩
    · intro c ch hcch
      by_cases hcc : c = p.column
      · subst hcc
        rw [hch] at hcch
        cases hcch
        refine ⟨_, List.getElem?_set_self hlt, List.length_modify _ _ _,
          rows_modify p.data chain i, ?_⟩
        intro j hj
        have hji : i ≠ j := fun e => hj ⟨rfl, e.symm⟩
        exact List.getElem?_modify_ne _ _ hji
      · refine ⟨ch, ?_, rfl, rfl, fun _ _ => rfl⟩
        show (b.rowEntries.set p.column _)[c]? = some ch
        rw [List.getElem?_set_ne (fun e => hcc e.symm)]
        exact hcch
    · refine ⟨_, List.getElem?_set_self hlt, ?_⟩
      rw [List.getElem?_modify_eq, hn1]
      simp [hn2]

/-- Witness for C19: the write of `(1, 5, 2)` on the bank holding `(1, 6) -> 1` and
`(1, 5) -> 1` returns and keeps the rows `[6, 5]` of column 1. -/
theorem C19_overwrite_in_place_witness :
    ∃ b1 out i, Bank.write exampleConfig exampleHeap
        { rowEntries := [[], [⟨6, 1⟩, ⟨5, 1⟩], [], []] }
        (BusPacket.new .WRITE 4096 1 5 0 0 2) = .returned (b1, out) ∧
      Bank.searchForRow 5 [⟨6, 1⟩, ⟨5, 1⟩] = some i ∧
      (∃ ch1, b1.rowEntries[1]? = some ch1 ∧ ch1[i]? = some { row := 5, data := 2 }) :=
  match (C19_overwrite_in_place exampleConfig).1 exampleHeap
      { rowEntries := [[], [⟨6, 1⟩, ⟨5, 1⟩], [], []] }
      (BusPacket.new .WRITE 4096 1 5 0 0 2) [⟨6, 1⟩, ⟨5, 1⟩] (by decide) (by decide)
      ⟨⟨5, 1⟩, by decide, rfl⟩ (Or.inr (by decide)) with
  | ⟨b1, out, i, h1, h2, _, _, _, _, h7⟩ => ⟨b1, out, i, h1, h2, h7⟩

/-- C20. Read does not touch storage: on a bank with `NUM_COLS` chains, a `read` of a packet
with `column < NUM_COLS` returns the bank it was given, found or not. When the row is found
the heap is as before; when it is not, the packet gets a block that did not exist, nothing is
inserted for the key, and a second read of the same key on the bank and heap left by the first
is a miss again: it returns the same bank and another block that did not exist. The buffer
size must hold a `long`. -/
theorem C20_read_leaves_storage (cfg : Config) (heap : Heap) (b : Bank) (q : BusPacket)
    (hlen : b.rowEntries.length = cfg.NUM_COLS) (hq : q.column < cfg.NUM_COLS)
    (hsz : LONG_BYTES ≤ cfg.BL * (cfg.JEDEC_DATA_BUS_BITS / 8)) :
    ∃ b1 heap1 q1, Bank.read cfg heap b q = .returned (b1, heap1, q1) ∧
      b1 = b ∧ b1.rowEntries = b.rowEntries ∧
      (b.present q.column q.row = true → heap1 = heap) ∧
      (b.present q.column q.row = false →
        heap.block q1.data = none ∧ heap1.block q1.data ≠ none ∧
        b1.present q.column q.row = false ∧
        ∃ b2 heap2 q2, Bank.read cfg heap1 b1 q = .returned (b2, heap2, q2) ∧
          b2 = b ∧ heap1.block q2.data = none ∧ heap2.block q2.data ≠ none ∧
          q2.data ≠ q1.data) := by
  cases hd : Bank.lookup b q.column q.row with
  | some d =>
    refine ⟨b, heap, _, read_hit cfg heap b q d hd, rfl, rfl, fun _ => rfl, ?_⟩
    intro hp
    rw [present_eq_lookup, hd] at hp
    cases hp
  | none =>
    have hblk : ∀ h : Heap, Heap.block { blocks := h.blocks ++ [sentinelBuffer cfg] }
        (h.blocks.length + 1) = some (sentinelBuffer cfg) := by
      intro h
      simp [Heap.block, NULL]
    have hnew : ∀ h : Heap, h.block (h.blocks.length + 1) = none := by
      intro h
      simp [Heap.block, NULL]
    refine ⟨b, _, _, read_miss cfg heap b q (by omega) hd hsz, rfl, rfl, ?_, ?_⟩
    · intro hp
      rw [present_eq_lookup, hd] at hp
      cases hp
    · intro hp
      refine ⟨hnew heap, by rw [hblk heap]; simp, hp, ?_⟩
      refine ⟨b, _, _, read_miss cfg _ b q (by omega) hd hsz, rfl, ?_, ?_, ?_⟩
      · exact hnew _
      · rw [hblk]
        simp
      · simp

/-- Witness for C20: on the bank holding `(1, 5) -> 1`, the read of `(1, 6)` misses and
returns the bank as it was. -/
theorem C20_read_leaves_storage_witness :
    ∃ b1 heap1 q1, Bank.read exampleConfig exampleHeap
        { rowEntries := [[], [⟨5, 1⟩], [], []] } (BusPacket.new .READ 4100 1 6 0 0 NULL)
        = .returned (b1, heap1, q1) ∧ b1 = { rowEntries := [[], [⟨5, 1⟩], [], []] } :=
  match C20_read_leaves_storage exampleConfig exampleHeap
      { rowEntries := [[], [⟨5, 1⟩], [], []] } (BusPacket.new .READ 4100 1 6 0 0 NULL)
      (by decide) (by decide) (by decide) with
  | ⟨b1, heap1, q1, h1, h2, _⟩ => ⟨b1, heap1, q1, h1, h2⟩

end DRAMSim
